import Mathlib

/-! Transaction handlers of the Minter node: edit-candidate-commission and
sell-all-swap-pool.

A shallow embedding of `core/transaction/edit_candidate_commission.go` and
`core/transaction/sell_all_swap_pool.go`, of the type switch of `encode` in
`api/v2/service/data_encoder.go` and of `KeepLastHeight` in `tree/tree.go`.

* Machine integers are natural numbers with an explicit reduction modulo `2^32`
  (`uint32`) or `2^64` (`uint64`) wherever the Go code adds or subtracts them.
* `*big.Int` values are `Int`.
* A Go call that may dereference a nil pointer yields `Go.panic`.
* The handlers mutate a `*state.State` through accessor methods; here the deliver
  context is threaded explicitly through `Deliver`, which also records every
  mutator call the handler issues, in order.
* Constants and helpers that live in other packages of the repository
  (`minCommission`, `types.GetUnbondPeriod`, `CalculateCommission`, ...) are the
  fields of `Env`.
-/

namespace Minter

/-! ## Values -/

/-- The type `types.CoinID` (a `uint32`). -/
abbrev CoinID := Nat

/-- The type `types.Address`, a fixed array of bytes. -/
structure Address where
  bytes : List Nat
deriving DecidableEq, Repr

/-- The type `types.Pubkey`, a fixed array of bytes. -/
structure Pubkey where
  bytes : List Nat
deriving DecidableEq, Repr

/-- Result of a Go computation: it returns a value or panics at run time. -/
inductive Go (α : Type) where
  | ret (a : α) : Go α
  | panic : Go α
deriving DecidableEq, Repr

/-- Response codes. The named constants of package `code` are kept symbolic;
`raw n` is a numeric literal written
in a handler, such as `999`. -/
inductive Code where
  | OK
  | WrongCommission
  | PeriodLimitReached
  | InsufficientFunds
  | raw (n : Nat)
deriving DecidableEq, Repr

/-- The argument of `EncodeError`: the structured error built by one of the
`code.New...` constructors, before it is serialised. -/
inductive ErrorInfo where
  | none
  | WrongCommission (got min max : String)
  | PeriodLimitReached (nextTime lastEdit : String)
  | InsufficientFunds (sender needed coinSymbol coinId : String)
deriving DecidableEq, Repr

/-- The struct `Response` returned by every handler. -/
structure Response where
  Code : Code
  Log : String := ""
  Info : ErrorInfo := ErrorInfo.none
  GasUsed : Int := 0
  GasWanted : Int := 0
  Tags : List (String × String) := []
deriving DecidableEq, Repr

/-- The struct `Transaction`, with the fields the two handlers read. `Sender` is the
address `tx.Sender()` recovers from the signature. -/
structure Transaction where
  Nonce : Nat
  GasPrice : Nat
  GasCoin : CoinID
  Sender : Address
deriving DecidableEq, Repr

/-! ## Ledger state -/

/-- A coin record (`coins.Model`). -/
structure Coin where
  id : CoinID
  symbol : String
  volume : Int
  reserve : Int
  crr : Nat
  maxSupply : Int
deriving DecidableEq, Repr

/-- A candidate record. -/
structure Candidate where
  PubKey : Pubkey
  RewardAddress : Address
  OwnerAddress : Address
  ControlAddress : Address
  Commission : Nat
  Status : Nat
  LastEditCommissionHeight : Nat
deriving DecidableEq, Repr

/-- A liquidity pool of the swap service. -/
structure SwapPool where
  reserve0 : Int
  reserve1 : Int
deriving DecidableEq, Repr

/-- Balances and nonces, by address. -/
structure AccountsState where
  balances : Address → CoinID → Int
  nonces : Address → Nat

/-- Coins by id; `none` is Go's nil `*coins.Model`. -/
structure CoinsState where
  coins : CoinID → Option Coin

/-- Candidates by public key; `none` is Go's nil `*Candidate`. -/
structure CandidatesState where
  candidates : Pubkey → Option Candidate

/-- Pools by ordered coin pair. -/
structure SwapState where
  pools : CoinID → CoinID → Option SwapPool

/-- The struct `state.State`: the ledger a block is applied to. -/
structure State where
  Accounts : AccountsState
  Coins : CoinsState
  Candidates : CandidatesState
  Swap : SwapState

/-- The struct `state.CheckState`: a read-only wrapper around a `State`. -/
structure CheckState where
  state : State

/-- The constructor `state.NewCheckState`. -/
def NewCheckState (s : State) : CheckState := { state := s }

/-- The interface `state.Interface` with its two implementations. -/
inductive Context where
  | check (cs : CheckState)
  | deliver (s : State)

/-- The handle `GetSwapper` returns: the swap service focused on one coin pair. -/
structure Swapper where
  swap : SwapState
  coin0 : CoinID
  coin1 : CoinID

/-! ### Read accessors

Modelled from the spec (§3, §4.2): the accessors are typed views over the store; a
read returns the stored record. -/

/-- Modelled from the spec: `Accounts().GetBalance(address, coin)`, the stored balance. -/
def AccountsState.GetBalance (a : AccountsState) (address : Address) (coin : CoinID) : Int :=
  a.balances address coin

/-- Modelled from the spec: `Accounts().GetNonce(address)`, the stored nonce. -/
def AccountsState.GetNonce (a : AccountsState) (address : Address) : Nat :=
  a.nonces address

/-- Modelled from the spec: `Coins().GetCoin(id)`, the stored coin or nil. -/
def CoinsState.GetCoin (c : CoinsState) (id : CoinID) : Option Coin :=
  c.coins id

/-- Modelled from the spec: `Candidates().GetCandidate(pubkey)`, the stored candidate
or nil. -/
def CandidatesState.GetCandidate (c : CandidatesState) (pubkey : Pubkey) : Option Candidate :=
  c.candidates pubkey

/-- Modelled from the spec: `Swap().SwapPoolExist(coin0, coin1)`, whether a pool
exists for the pair. -/
def SwapState.SwapPoolExist (s : SwapState) (coin0 coin1 : CoinID) : Bool :=
  (s.pools coin0 coin1).isSome

/-- Modelled from the spec: `Swap().GetSwapper(coin0, coin1)`. -/
def SwapState.GetSwapper (s : SwapState) (coin0 coin1 : CoinID) : Swapper :=
  { swap := s, coin0 := coin0, coin1 := coin1 }

/-- Modelled from the spec: `GetFullSymbol()` of a coin record. -/
def Coin.GetFullSymbol (c : Coin) : String := c.symbol

/-! ## External constants and helpers -/

/-- Constants and helper functions of the repository that the two handlers use and
whose definitions are in other files. -/
structure Env where
  /-- The constant `minCommission`. -/
  minCommission : Nat
  /-- The constant `maxCommission`. -/
  maxCommission : Nat
  /-- The value of `types.GetUnbondPeriod()` (a `uint64`). -/
  GetUnbondPeriod : Nat
  /-- The value of `types.GetBaseCoinID()`. -/
  GetBaseCoinID : CoinID
  /-- The byte of `TypeEditCandidateCommission`. -/
  TypeEditCandidateCommission : Nat
  /-- The byte of `TypeSellSwapPool`. -/
  TypeSellSwapPool : Nat
  /-- The byte of `TypeSellAllSwapPool`. -/
  TypeSellAllSwapPool : Nat
  /-- The helper `checkCandidateOwnership(data, tx, context)`, applied to
  `data.GetPubKey()`. -/
  checkCandidateOwnership : Pubkey → Transaction → CheckState → Option Response
  /-- The method `tx.CommissionInBaseCoin(price)`. -/
  CommissionInBaseCoinAt : Transaction → Int → Int
  /-- The method `tx.CommissionInBaseCoin()`. -/
  CommissionInBaseCoin : Transaction → Int
  /-- The method `tx.Gas()`. -/
  Gas : Transaction → Int
  /-- The helper `CalculateCommission`: commission in the gas coin, whether it is
  taken through the pool, and an error response. -/
  CalculateCommission : CheckState → Swapper → Option Coin → Int → Int × Bool × Option Response
  /-- The helper `CheckReserveUnderflow(coin, delta)`; it reads the reserve of `coin`, so
  it is given a coin that is not nil. -/
  CheckReserveUnderflow : Coin → Int → Option Response
  /-- The function `formula.CalculateSaleAmount(volume, reserve, crr, wantReceive)`. -/
  CalculateSaleAmount : Int → Int → Nat → Int → Int
  /-- The mutator `Swap.PairSell(coin0, coin1, amount0In, minAmount1Out)`: the two
  returned amounts and the updated pools. -/
  PairSell : SwapState → CoinID → CoinID → Int → Int → (Int × Int) × SwapState
  /-- The constant `commissions.ConvertTx`. -/
  ConvertTx : Int
  /-- The method `String()` of an address. -/
  AddressString : Address → String
  /-- The method `String()` of the flag `isGasCommissionFromPoolSwap`. -/
  GasMethodString : Bool → String

/-- The method `CoinID.IsBaseCoin`. -/
def IsBaseCoin (env : Env) (id : CoinID) : Bool := decide (id = env.GetBaseCoinID)

/-! ## Go library functions -/

/-- The conversion `int(x)` of a `uint64` on a 64-bit platform. -/
def toInt64 (x : Nat) : Int :=
  if x % 2 ^ 64 < 2 ^ 63 then (x % 2 ^ 64 : Nat) else ((x % 2 ^ 64 : Nat) : Int) - 2 ^ 64

/-- One lowercase hexadecimal digit. -/
def hexDigit (n : Nat) : Char :=
  if n < 10 then Char.ofNat (48 + n) else Char.ofNat (87 + n)

/-- The function `hex.EncodeToString`. -/
def hexEncodeToString (bs : List Nat) : String :=
  String.mk (bs.flatMap fun b => [hexDigit (b / 16 % 16), hexDigit (b % 16)])

/-! ## The deliver context and its mutators -/

/-- A mutator call issued against the deliver state or the reward pool. -/
inductive Op where
  | PairSell (coin0 coin1 : CoinID) (amount0In minAmount1Out : Int)
  | SubVolume (id : CoinID) (amount : Int)
  | SubReserve (id : CoinID) (amount : Int)
  | SubBalance (address : Address) (coin : CoinID) (amount : Int)
  | AddRewardPool (amount : Int)
  | EditCommission (pubkey : Pubkey) (commission : Nat) (height : Nat)
  | SetNonce (address : Address) (nonce : Nat)
deriving DecidableEq, Repr

/-- What a handler mutates while it applies a transaction: the deliver state, the
reward pool handed in by the caller, and the log of the mutator calls issued so far. -/
structure Deliver where
  state : State
  rewardPool : Int
  issued : List Op

/-- Modelled from the spec: `Accounts.SubBalance(address, coin, amount)` debits the
balance of `address` in `coin` by `amount`. -/
def Deliver.SubBalance (d : Deliver) (address : Address) (coin : CoinID) (amount : Int) :
    Deliver :=
  { d with
    state := { d.state with
      Accounts := { d.state.Accounts with
        balances := fun a c =>
          if a = address ∧ c = coin then d.state.Accounts.balances a c - amount
          else d.state.Accounts.balances a c } }
    issued := d.issued ++ [Op.SubBalance address coin amount] }

/-- Modelled from the spec: `Accounts.SetNonce(address, nonce)` stores `nonce` as the
nonce of `address`. -/
def Deliver.SetNonce (d : Deliver) (address : Address) (nonce : Nat) : Deliver :=
  { d with
    state := { d.state with
      Accounts := { d.state.Accounts with
        nonces := fun a => if a = address then nonce else d.state.Accounts.nonces a } }
    issued := d.issued ++ [Op.SetNonce address nonce] }

/-- Modelled from the spec: `Coins.SubVolume(id, amount)` reduces the volume of the
coin `id` by `amount`. -/
def Deliver.SubVolume (d : Deliver) (id : CoinID) (amount : Int) : Deliver :=
  { d with
    state := { d.state with
      Coins := { coins := fun i =>
        if i = id then (d.state.Coins.coins i).map fun c => { c with volume := c.volume - amount }
        else d.state.Coins.coins i } }
    issued := d.issued ++ [Op.SubVolume id amount] }

/-- Modelled from the spec: `Coins.SubReserve(id, amount)` reduces the reserve of the
coin `id` by `amount`. -/
def Deliver.SubReserve (d : Deliver) (id : CoinID) (amount : Int) : Deliver :=
  { d with
    state := { d.state with
      Coins := { coins := fun i =>
        if i = id then (d.state.Coins.coins i).map fun c => { c with reserve := c.reserve - amount }
        else d.state.Coins.coins i } }
    issued := d.issued ++ [Op.SubReserve id amount] }

/-- Modelled from the spec: `Candidates.EditCommission(pubkey, commission, height)`
updates the candidate's commission and its `lastEditCommissionHeight`. -/
def Deliver.EditCommission (d : Deliver) (pubkey : Pubkey) (commission : Nat) (height : Nat) :
    Deliver :=
  { d with
    state := { d.state with
      Candidates := { candidates := fun k =>
        if k = pubkey then
          (d.state.Candidates.candidates k).map fun c =>
            { c with Commission := commission, LastEditCommissionHeight := height }
        else d.state.Candidates.candidates k } }
    issued := d.issued ++ [Op.EditCommission pubkey commission height] }

/-- The call `rewardPool.Add(rewardPool, amount)`. -/
def Deliver.AddRewardPool (d : Deliver) (amount : Int) : Deliver :=
  { d with
    rewardPool := d.rewardPool + amount
    issued := d.issued ++ [Op.AddRewardPool amount] }

/-- The call `deliverState.Swap.PairSell(coin0, coin1, amount0In, minAmount1Out)`: the
two returned amounts, and the context with the pools updated. -/
def Deliver.PairSell (env : Env) (d : Deliver) (coin0 coin1 : CoinID)
    (amount0In minAmount1Out : Int) : (Int × Int) × Deliver :=
  let r := env.PairSell d.state.Swap coin0 coin1 amount0In minAmount1Out
  (r.1, { d with
    state := { d.state with Swap := r.2 }
    issued := d.issued ++ [Op.PairSell coin0 coin1 amount0In minAmount1Out] })

/-- What `Run` leaves behind: the response, the ledger state of the context it was
given, the reward pool, and the mutator calls it issued. -/
structure RunResult where
  response : Response
  state : State
  rewardPool : Int
  issued : List Op

/-- The ledger state behind a context. -/
def Context.state : Context → State
  | Context.check cs => cs.state
  | Context.deliver s => s

/-- Whether the context is the deliver context (`context.(*state.State)` succeeds). -/
def Context.isDeliver : Context → Bool
  | Context.check _ => false
  | Context.deliver _ => true

/-- A `Run` that returns `response` without touching anything. -/
def RunResult.untouched (response : Response) (context : Context) (rewardPool : Int) :
    RunResult :=
  { response := response, state := context.state, rewardPool := rewardPool, issued := [] }

/-! ## `edit_candidate_commission.go` -/

/-- The struct `EditCandidateCommission`. -/
structure EditCandidateCommission where
  PubKey : Pubkey
  Commission : Nat
deriving DecidableEq, Repr

/-- The method `EditCandidateCommission.TxType`. -/
def EditCandidateCommission.TxType (env : Env) (_data : EditCandidateCommission) : Nat :=
  env.TypeEditCandidateCommission

/-- The method `EditCandidateCommission.GetPubKey`. -/
def EditCandidateCommission.GetPubKey (data : EditCandidateCommission) : Pubkey :=
  data.PubKey

/-- The value of `maxNewCommission` at line 43: `candidate.Commission+10` in `uint32`,
lowered to `maxCommission` when above it. -/
def maxNewCommission (env : Env) (commission : Nat) : Nat :=
  if (commission + 10) % 2 ^ 32 > env.maxCommission then env.maxCommission
  else (commission + 10) % 2 ^ 32

/-- The value of `minNewCommission` at line 43: `candidate.Commission-10` in `uint32`,
raised to `minCommission` when below it. -/
def minNewCommission (env : Env) (commission : Nat) : Nat :=
  if (commission + 2 ^ 32 - 10) % 2 ^ 32 < env.minCommission then env.minCommission
  else (commission + 2 ^ 32 - 10) % 2 ^ 32

/-- The response built at lines 44-48. -/
def wrongCommissionResponse (env : Env) (candidate : Candidate)
    (data : EditCandidateCommission) : Response :=
  { Code := Code.WrongCommission
    Log := "You want change commission from " ++ toString candidate.Commission ++ " to "
      ++ toString data.Commission
      ++ ", but you can change no more than 10 units, because commission should be between "
      ++ toString (minNewCommission env candidate.Commission) ++ " and "
      ++ toString (maxNewCommission env candidate.Commission)
    Info := ErrorInfo.WrongCommission (toString data.Commission)
      (toString (minNewCommission env candidate.Commission))
      (toString (maxNewCommission env candidate.Commission)) }

/-- The `uint64` value `candidate.LastEditCommissionHeight+3*types.GetUnbondPeriod()`. -/
def nextEditHeight (env : Env) (candidate : Candidate) : Nat :=
  (candidate.LastEditCommissionHeight + 3 * env.GetUnbondPeriod % 2 ^ 64) % 2 ^ 64

/-- The response built at lines 52-56. -/
def periodLimitResponse (env : Env) (candidate : Candidate) : Response :=
  { Code := Code.PeriodLimitReached
    Log := "You cannot change the commission more than once every "
      ++ toString (3 * env.GetUnbondPeriod % 2 ^ 64)
      ++ " blocks, the last change was on block "
      ++ toString candidate.LastEditCommissionHeight
    Info := ErrorInfo.PeriodLimitReached (toString (toInt64 (nextEditHeight env candidate)))
      (toString (toInt64 candidate.LastEditCommissionHeight)) }

/-- The method `EditCandidateCommission.basicCheck`; `none` is the nil response. -/
def EditCandidateCommission.basicCheck (env : Env) (data : EditCandidateCommission)
    (tx : Transaction) (context : CheckState) (block : Nat) : Go (Option Response) :=
  match env.checkCandidateOwnership data.GetPubKey tx context with
  | some errResp => Go.ret (some errResp)
  | none =>
    match context.state.Candidates.GetCandidate data.PubKey with
    | none => Go.panic
    | some candidate =>
      if data.Commission < minNewCommission env candidate.Commission
          ∨ data.Commission > maxNewCommission env candidate.Commission then
        Go.ret (some (wrongCommissionResponse env candidate data))
      else if nextEditHeight env candidate > block then
        Go.ret (some (periodLimitResponse env candidate))
      else
        Go.ret none

/-- The response built at lines 93-97 of either handler. -/
def insufficientFundsResponse (env : Env) (sender : Address) (commission : Int)
    (gasCoin : Coin) : Response :=
  { Code := Code.InsufficientFunds
    Log := "Insufficient funds for sender account: " ++ env.AddressString sender
      ++ ". Wanted " ++ toString commission ++ " " ++ gasCoin.GetFullSymbol
    Info := ErrorInfo.InsufficientFunds (env.AddressString sender) (toString commission)
      gasCoin.GetFullSymbol (toString gasCoin.id) }

/-- The effects of lines 101-111 on the deliver context, with the final values of
`commission` and `commissionInBaseCoin`. -/
def EditCandidateCommission.apply (env : Env) (data : EditCandidateCommission)
    (tx : Transaction) (d : Deliver) (currentBlock : Nat)
    (commission commissionInBaseCoin : Int) (isGasCommissionFromPoolSwap : Bool) :
    (Int × Int) × Deliver :=
  let r : (Int × Int) × Deliver :=
    if isGasCommissionFromPoolSwap then
      d.PairSell env tx.GasCoin env.GetBaseCoinID commission commissionInBaseCoin
    else if !IsBaseCoin env tx.GasCoin then
      ((commission, commissionInBaseCoin),
        (d.SubVolume tx.GasCoin commission).SubReserve tx.GasCoin commissionInBaseCoin)
    else
      ((commission, commissionInBaseCoin), d)
  let d1 := r.2.SubBalance tx.Sender tx.GasCoin r.1.1
  let d2 := d1.AddRewardPool r.1.2
  let d3 := d2.EditCommission data.PubKey data.Commission currentBlock
  (r.1, d3.SetNonce tx.Sender tx.Nonce)

/-- The response built at lines 114-128. -/
def EditCandidateCommission.okResponse (env : Env) (tx : Transaction) (gas : Int)
    (commission commissionInBaseCoin : Int) (isGasCommissionFromPoolSwap : Bool) : Response :=
  { Code := Code.OK
    GasUsed := gas
    GasWanted := gas
    Tags :=
      [("tx.gas", toString gas),
       ("tx.commission_in_base_coin", toString commissionInBaseCoin),
       ("tx.commission_conversion", env.GasMethodString isGasCommissionFromPoolSwap),
       ("tx.commission_amount", toString commission),
       ("tx.type", hexEncodeToString [env.TypeEditCandidateCommission]),
       ("tx.from", hexEncodeToString tx.Sender.bytes)] }

/-- The method `EditCandidateCommission.Run`. -/
def EditCandidateCommission.Run (env : Env) (data : EditCandidateCommission)
    (tx : Transaction) (context : Context) (rewardPool : Int) (currentBlock : Nat)
    (price : Int) (gas : Int) : Go RunResult :=
  let sender := tx.Sender
  let checkState : CheckState :=
    match context with
    | Context.check cs => cs
    | Context.deliver s => NewCheckState s
  match data.basicCheck env tx checkState currentBlock with
  | Go.panic => Go.panic
  | Go.ret (some response) => Go.ret (RunResult.untouched response context rewardPool)
  | Go.ret none =>
    let commissionInBaseCoin := env.CommissionInBaseCoinAt tx price
    let commissionPoolSwapper := checkState.state.Swap.GetSwapper tx.GasCoin env.GetBaseCoinID
    let gasCoin := checkState.state.Coins.GetCoin tx.GasCoin
    match env.CalculateCommission checkState commissionPoolSwapper gasCoin commissionInBaseCoin with
    | (_, _, some errResp) => Go.ret (RunResult.untouched errResp context rewardPool)
    | (commission, isGasCommissionFromPoolSwap, none) =>
      if checkState.state.Accounts.GetBalance sender tx.GasCoin < commission then
        match gasCoin with
        | none => Go.panic
        | some coin =>
          Go.ret (RunResult.untouched (insufficientFundsResponse env sender commission coin)
            context rewardPool)
      else
        match context with
        | Context.deliver deliverState =>
          let r := data.apply env tx
            { state := deliverState, rewardPool := rewardPool, issued := [] }
            currentBlock commission commissionInBaseCoin isGasCommissionFromPoolSwap
          Go.ret
            { response := EditCandidateCommission.okResponse env tx gas r.1.1 r.1.2
                isGasCommissionFromPoolSwap
              state := r.2.state
              rewardPool := r.2.rewardPool
              issued := r.2.issued }
        | Context.check _ =>
          Go.ret (RunResult.untouched
            (EditCandidateCommission.okResponse env tx gas commission commissionInBaseCoin
              isGasCommissionFromPoolSwap) context rewardPool)

/-! ## `sell_all_swap_pool.go` -/

/-- The struct `SellAllSwapPool`. -/
structure SellAllSwapPool where
  CoinToSell : CoinID
  CoinToBuy : CoinID
  MinimumValueToBuy : Int
deriving DecidableEq, Repr

/-- The response built at lines 23-27. -/
def identicalCoinResponse : Response :=
  { Code := Code.raw 999, Log := "identical coin" }

/-- The response built at lines 31-35. -/
def swapPoolNotFoundResponse : Response :=
  { Code := Code.raw 999, Log := "swap pool not found" }

/-- The method `SellAllSwapPool.basicCheck`; `none` is the nil response. -/
def SellAllSwapPool.basicCheck (data : SellAllSwapPool) (_tx : Transaction)
    (context : CheckState) : Option Response :=
  if data.CoinToBuy = data.CoinToSell then
    some identicalCoinResponse
  else if !context.state.Swap.SwapPoolExist data.CoinToSell data.CoinToBuy then
    some swapPoolNotFoundResponse
  else
    none

/-- The method `SellAllSwapPool.Gas`, which returns the constant `commissions.ConvertTx`. -/
def SellAllSwapPool.Gas (env : Env) (_data : SellAllSwapPool) : Int := env.ConvertTx

/-- The effects of lines 105-112 on the deliver context. -/
def SellAllSwapPool.apply (tx : Transaction) (d : Deliver)
    (commission commissionInBaseCoin : Int) : Deliver :=
  let d1 := d.AddRewardPool commissionInBaseCoin
  let d2 := d1.SubVolume tx.GasCoin commission
  let d3 := d2.SubReserve tx.GasCoin commissionInBaseCoin
  let d4 := d3.SubBalance tx.Sender tx.GasCoin commission
  d4.SetNonce tx.Sender tx.Nonce

/-- The response built at lines 115-125. -/
def SellAllSwapPool.okResponse (env : Env) (tx : Transaction) : Response :=
  { Code := Code.OK
    GasUsed := env.Gas tx
    GasWanted := env.Gas tx
    Tags :=
      [("tx.type", hexEncodeToString [env.TypeSellSwapPool]),
       ("tx.from", hexEncodeToString tx.Sender.bytes)] }

/-- Lines 70-82 of `SellAllSwapPool.Run`: the commission in the gas coin, or the
response of `CheckReserveUnderflow`. With a gas coin other than the base coin the
reserve, volume and crr of `gasCoin` are read, which panics on a nil coin. -/
def SellAllSwapPool.commission (env : Env) (tx : Transaction) (gasCoin : Option Coin)
    (commissionInBaseCoin : Int) : Go (Except Response Int) :=
  if !IsBaseCoin env tx.GasCoin then
    match gasCoin with
    | none => Go.panic
    | some coin =>
      match env.CheckReserveUnderflow coin commissionInBaseCoin with
      | some errResp => Go.ret (Except.error errResp)
      | none =>
        Go.ret (Except.ok
          (env.CalculateSaleAmount coin.volume coin.reserve coin.crr commissionInBaseCoin))
  else
    Go.ret (Except.ok commissionInBaseCoin)

/-- The method `SellAllSwapPool.Run`. -/
def SellAllSwapPool.Run (env : Env) (data : SellAllSwapPool) (tx : Transaction)
    (context : Context) (rewardPool : Int) (_currentBlock : Nat) : Go RunResult :=
  let sender := tx.Sender
  let checkState : CheckState :=
    match context with
    | Context.check cs => cs
    | Context.deliver s => NewCheckState s
  match data.basicCheck tx checkState with
  | some response => Go.ret (RunResult.untouched response context rewardPool)
  | none =>
    let commissionInBaseCoin := env.CommissionInBaseCoin tx
    let gasCoin := checkState.state.Coins.GetCoin tx.GasCoin
    match SellAllSwapPool.commission env tx gasCoin commissionInBaseCoin with
    | Go.panic => Go.panic
    | Go.ret (Except.error errResp) => Go.ret (RunResult.untouched errResp context rewardPool)
    | Go.ret (Except.ok commission) =>
      if checkState.state.Accounts.GetBalance sender tx.GasCoin < commission then
        match gasCoin with
        | none => Go.panic
        | some coin =>
          Go.ret (RunResult.untouched (insufficientFundsResponse env sender commission coin)
            context rewardPool)
      else
        match context with
        | Context.deliver deliverState =>
          let d := SellAllSwapPool.apply tx
            { state := deliverState, rewardPool := rewardPool, issued := [] }
            commission commissionInBaseCoin
          Go.ret
            { response := SellAllSwapPool.okResponse env tx
              state := d.state
              rewardPool := d.rewardPool
              issued := d.issued }
        | Context.check _ =>
          Go.ret (RunResult.untouched (SellAllSwapPool.okResponse env tx) context rewardPool)

/-! ## The band of the specification

The specification bounds the requested commission to
`[max(minCommission, current-10), min(maxCommission, current+10)]`; these two
definitions follow its words, in integer arithmetic. -/

/-- Lower end of the band as the specification words it. -/
def specMinNewCommission (env : Env) (commission : Nat) : Int :=
  max (env.minCommission : Int) ((commission : Int) - 10)

/-- Upper end of the band as the specification words it. -/
def specMaxNewCommission (env : Env) (commission : Nat) : Int :=
  min (env.maxCommission : Int) ((commission : Int) + 10)

/-! ## Projections of a result -/

/-- The function applied to the returned value, if there is one. -/
def Go.map {α β : Type} (f : α → β) : Go α → Go β
  | Go.ret a => Go.ret (f a)
  | Go.panic => Go.panic

/-- The code of a response, if there is one. -/
def codeOf (r : Go (Option Response)) : Go (Option Code) :=
  r.map fun o => o.map fun x => x.Code

/-! ## Assumption on the external helpers -/

/-- The rejections of the external helpers carry an error code: none of the responses
`checkCandidateOwnership`, `CalculateCommission` and `CheckReserveUnderflow` return has
the code `OK`. -/
def Env.ErrorsAreNotOK (env : Env) : Prop :=
  (∀ pubkey tx cs r, env.checkCandidateOwnership pubkey tx cs = some r → r.Code ≠ Code.OK)
    ∧ (∀ cs swapper gasCoin amount r,
        (env.CalculateCommission cs swapper gasCoin amount).2.2 = some r → r.Code ≠ Code.OK)
    ∧ (∀ coin delta r, env.CheckReserveUnderflow coin delta = some r → r.Code ≠ Code.OK)

/-! ## A concrete configuration and ledger, for examples -/

/-- An example owner address. -/
def exampleOwner : Address := { bytes := List.replicate 20 1 }

/-- An example address that owns nothing. -/
def exampleStranger : Address := { bytes := List.replicate 20 2 }

/-- An example public key. -/
def exampleKey : Pubkey := { bytes := List.replicate 32 7 }

/-- An example configuration: commissions range over `0..100`, the base coin has id
`0`, the unbond period is `518400` blocks; the commission of a transaction is
`GasPrice` times the price, the bonding-curve helpers are simple stand-ins. -/
def exampleEnv : Env :=
  { minCommission := 0
    maxCommission := 100
    GetUnbondPeriod := 518400
    GetBaseCoinID := 0
    TypeEditCandidateCommission := 26
    TypeSellSwapPool := 23
    TypeSellAllSwapPool := 25
    checkCandidateOwnership := fun pubkey tx cs =>
      match cs.state.Candidates.GetCandidate pubkey with
      | none => some { Code := Code.raw 403, Log := "candidate not found" }
      | some c =>
        if c.OwnerAddress = tx.Sender then none
        else some { Code := Code.raw 406, Log := "sender is not an owner of the candidate" }
    CommissionInBaseCoinAt := fun tx price => (tx.GasPrice : Int) * price
    CommissionInBaseCoin := fun tx => (tx.GasPrice : Int) * 100
    Gas := fun _ => 100
    CalculateCommission := fun cs swapper gasCoin commissionInBaseCoin =>
      match gasCoin with
      | none => (0, false, some { Code := Code.raw 102, Log := "coin not exists" })
      | some coin =>
        if coin.id = 0 then (commissionInBaseCoin, false, none)
        else if cs.state.Swap.SwapPoolExist swapper.coin0 swapper.coin1 then
          (2 * commissionInBaseCoin, true, none)
        else if coin.reserve < commissionInBaseCoin then
          (0, false, some { Code := Code.raw 119, Log := "commission coin not sufficient" })
        else (3 * commissionInBaseCoin, false, none)
    CheckReserveUnderflow := fun coin delta =>
      if coin.reserve < delta then
        some { Code := Code.raw 116, Log := "coin reserve is too small" }
      else none
    CalculateSaleAmount := fun _ _ _ wantReceive => 3 * wantReceive
    PairSell := fun swap coin0 coin1 amount0In minAmount1Out =>
      ((amount0In, minAmount1Out),
        { pools := fun a b =>
            if a = coin0 ∧ b = coin1 then
              (swap.pools a b).map fun p =>
                { reserve0 := p.reserve0 + amount0In, reserve1 := p.reserve1 - minAmount1Out }
            else swap.pools a b })
    ConvertTx := 100
    AddressString := fun a => "Mx" ++ hexEncodeToString a.bytes
    GasMethodString := fun b => if b then "pool" else "bancor" }

/-- An example ledger: one candidate `exampleKey`, owned by `exampleOwner`, with the
given commission and height of last edit; the owner holds 1000 units of the coins `0`
and `1`; there is a pool for the pair `(1, 2)`. -/
def exampleState (commission lastEdit : Nat) : State :=
  { Accounts :=
      { balances := fun a c => if a = exampleOwner ∧ (c = 0 ∨ c = 1) then 1000 else 0
        nonces := fun _ => 0 }
    Coins :=
      { coins := fun i =>
          if i = 0 then
            some { id := 0, symbol := "BIP", volume := 1000000, reserve := 1000000, crr := 100,
                   maxSupply := 10000000 }
          else if i = 1 then
            some { id := 1, symbol := "TEST", volume := 50000, reserve := 20000, crr := 50,
                   maxSupply := 1000000 }
          else if i = 2 then
            some { id := 2, symbol := "POOL", volume := 50000, reserve := 20000, crr := 50,
                   maxSupply := 1000000 }
          else none }
    Candidates :=
      { candidates := fun k =>
          if k = exampleKey then
            some { PubKey := exampleKey, RewardAddress := exampleOwner,
                   OwnerAddress := exampleOwner, ControlAddress := exampleOwner,
                   Commission := commission, Status := 2,
                   LastEditCommissionHeight := lastEdit }
          else none }
    Swap :=
      { pools := fun a b =>
          if a = 1 ∧ b = 2 then some { reserve0 := 10000, reserve1 := 10000 } else none } }

/-- An example transaction of `exampleOwner` paying its commission in `gasCoin`. -/
def exampleTx (gasCoin : CoinID) : Transaction :=
  { Nonce := 5, GasPrice := 1, GasCoin := gasCoin, Sender := exampleOwner }

/-! ## Tags of a response -/

/-- The value of the first pair of `Tags` whose key is `key`. -/
def Response.tag (r : Response) (key : String) : Option String :=
  (r.Tags.find? fun kv => kv.1 = key).map fun kv => kv.2

/-! ## `api/v2/service/data_encoder.go` -/

/-- The dynamic type of a `transaction.Data` value, as far as the type switch of `encode`
tells types apart: the pointer types its cases name, the two types whose cases are
commented out, and every other type (`other`, with the nil interface among them). -/
inductive DataType where
  | BuyCoinData
  | EditCoinOwnerData
  | CreateCoinData
  | CreateMultisigData
  | DeclareCandidacyData
  | DelegateData
  | EditCandidateData
  | EditCandidatePublicKeyData
  | EditMultisigData
  | MultisendData
  | RecreateCoinData
  | RedeemCheckData
  | SellAllCoinData
  | SellCoinData
  | SendData
  | SetHaltBlockData
  | SetCandidateOnData
  | SetCandidateOffData
  | UnbondData
  | AddLiquidityData
  | RemoveLiquidity
  | BuySwapPoolData
  | SellSwapPoolData
  | SellAllSwapPoolData
  | CreateTokenData
  | RecreateTokenData
  | BurnTokenData
  | MintTokenData
  | EditCandidateCommission
  | VoteCommissionData
  | VoteUpdateData
  | CreateSwapPoolData
  | PriceVoteData
  | MoveStakeData
  | other (name : String)
deriving DecidableEq, Repr

/-- The struct a payload points to, kept as its encoded bytes. -/
structure Payload where
  bytes : List Nat
deriving DecidableEq, Repr

/-- A value of the interface `transaction.Data`. -/
structure Data where
  type : DataType
  payload : Payload
deriving DecidableEq, Repr

/-- A `proto.Message` of package `pb`: its type and its encoded fields. -/
structure Message where
  name : String
  fields : List Nat
deriving DecidableEq, Repr

/-- The struct `any.Any`. -/
structure Any where
  typeUrl : String
  value : List Nat
deriving DecidableEq, Repr

/-- An `error` value: the one made by `errors.New` in `encode`, or one handed back by
`anypb.New`. -/
inductive GoError where
  | errorsNew (text : String)
  | anypb (text : String)
deriving DecidableEq, Repr

/-- The packages `pb`, `anypb` and the payload structs of package `transaction`, as far
as `encode` uses them. -/
structure Proto where
  /-- The composite literal a case of the type switch assigns to `m`, read from the
  payload and, for the coin symbols, from `rCoins`; it panics where a nil payload or a
  nil coin is dereferenced. -/
  message : DataType → Payload → CoinsState → Go Message
  /-- The field `d.Coin` of a `*transaction.VoteCommissionData`. -/
  VoteCommissionCoin : Payload → CoinID
  /-- The composite literal of `priceCommissionData`. -/
  VoteCommissionData : Payload → Option Coin → Go Message
  /-- The function `anypb.New`: the message and the error it returns. -/
  New : Message → Option Any × Option String

/-- The types named by the cases of the type switch of `encode`, in order. -/
def switchCases : List DataType :=
  [DataType.BuyCoinData,
    DataType.EditCoinOwnerData,
    DataType.CreateCoinData,
    DataType.CreateMultisigData,
    DataType.DeclareCandidacyData,
    DataType.DelegateData,
    DataType.EditCandidateData,
    DataType.EditCandidatePublicKeyData,
    DataType.EditMultisigData,
    DataType.MultisendData,
    DataType.RecreateCoinData,
    DataType.RedeemCheckData,
    DataType.SellAllCoinData,
    DataType.SellCoinData,
    DataType.SendData,
    DataType.SetHaltBlockData,
    DataType.SetCandidateOnData,
    DataType.SetCandidateOffData,
    DataType.UnbondData,
    DataType.AddLiquidityData,
    DataType.RemoveLiquidity,
    DataType.BuySwapPoolData,
    DataType.SellSwapPoolData,
    DataType.SellAllSwapPoolData,
    DataType.CreateTokenData,
    DataType.RecreateTokenData,
    DataType.BurnTokenData,
    DataType.MintTokenData,
    DataType.EditCandidateCommission,
    DataType.VoteCommissionData,
    DataType.VoteUpdateData,
    DataType.CreateSwapPoolData]

/-- The function `priceCommissionData`. -/
def priceCommissionData (pb : Proto) (d : Payload) (coin : Option Coin) : Go Message :=
  pb.VoteCommissionData d coin

/-- Lines 334-339 of `encode`, after the switch has assigned `m`. -/
def encodeMessage (pb : Proto) (m : Go Message) : Go (Option Any × Option GoError) :=
  match m with
  | Go.panic => Go.panic
  | Go.ret m =>
    match pb.New m with
    | (_, some err) => Go.ret (none, some (GoError.anypb err))
    | (a, none) => Go.ret (a, none)

/-- The function `encode`: the message and the error it returns. -/
def encode (pb : Proto) (data : Data) (rCoins : CoinsState) : Go (Option Any × Option GoError) :=
  match data.type with
  | DataType.BuyCoinData => encodeMessage pb (pb.message DataType.BuyCoinData data.payload rCoins)
  | DataType.EditCoinOwnerData => encodeMessage pb (pb.message DataType.EditCoinOwnerData data.payload rCoins)
  | DataType.CreateCoinData => encodeMessage pb (pb.message DataType.CreateCoinData data.payload rCoins)
  | DataType.CreateMultisigData => encodeMessage pb (pb.message DataType.CreateMultisigData data.payload rCoins)
  | DataType.DeclareCandidacyData => encodeMessage pb (pb.message DataType.DeclareCandidacyData data.payload rCoins)
  | DataType.DelegateData => encodeMessage pb (pb.message DataType.DelegateData data.payload rCoins)
  | DataType.EditCandidateData => encodeMessage pb (pb.message DataType.EditCandidateData data.payload rCoins)
  | DataType.EditCandidatePublicKeyData => encodeMessage pb (pb.message DataType.EditCandidatePublicKeyData data.payload rCoins)
  | DataType.EditMultisigData => encodeMessage pb (pb.message DataType.EditMultisigData data.payload rCoins)
  | DataType.MultisendData => encodeMessage pb (pb.message DataType.MultisendData data.payload rCoins)
  | DataType.RecreateCoinData => encodeMessage pb (pb.message DataType.RecreateCoinData data.payload rCoins)
  | DataType.RedeemCheckData => encodeMessage pb (pb.message DataType.RedeemCheckData data.payload rCoins)
  | DataType.SellAllCoinData => encodeMessage pb (pb.message DataType.SellAllCoinData data.payload rCoins)
  | DataType.SellCoinData => encodeMessage pb (pb.message DataType.SellCoinData data.payload rCoins)
  | DataType.SendData => encodeMessage pb (pb.message DataType.SendData data.payload rCoins)
  | DataType.SetHaltBlockData => encodeMessage pb (pb.message DataType.SetHaltBlockData data.payload rCoins)
  | DataType.SetCandidateOnData => encodeMessage pb (pb.message DataType.SetCandidateOnData data.payload rCoins)
  | DataType.SetCandidateOffData => encodeMessage pb (pb.message DataType.SetCandidateOffData data.payload rCoins)
  | DataType.UnbondData => encodeMessage pb (pb.message DataType.UnbondData data.payload rCoins)
  | DataType.AddLiquidityData => encodeMessage pb (pb.message DataType.AddLiquidityData data.payload rCoins)
  | DataType.RemoveLiquidity => encodeMessage pb (pb.message DataType.RemoveLiquidity data.payload rCoins)
  | DataType.BuySwapPoolData => encodeMessage pb (pb.message DataType.BuySwapPoolData data.payload rCoins)
  | DataType.SellSwapPoolData => encodeMessage pb (pb.message DataType.SellSwapPoolData data.payload rCoins)
  | DataType.SellAllSwapPoolData => encodeMessage pb (pb.message DataType.SellAllSwapPoolData data.payload rCoins)
  | DataType.CreateTokenData => encodeMessage pb (pb.message DataType.CreateTokenData data.payload rCoins)
  | DataType.RecreateTokenData => encodeMessage pb (pb.message DataType.RecreateTokenData data.payload rCoins)
  | DataType.BurnTokenData => encodeMessage pb (pb.message DataType.BurnTokenData data.payload rCoins)
  | DataType.MintTokenData => encodeMessage pb (pb.message DataType.MintTokenData data.payload rCoins)
  | DataType.EditCandidateCommission => encodeMessage pb (pb.message DataType.EditCandidateCommission data.payload rCoins)
  | DataType.VoteCommissionData =>
    encodeMessage pb (priceCommissionData pb data.payload (rCoins.GetCoin (pb.VoteCommissionCoin data.payload)))
  | DataType.VoteUpdateData => encodeMessage pb (pb.message DataType.VoteUpdateData data.payload rCoins)
  | DataType.CreateSwapPoolData => encodeMessage pb (pb.message DataType.CreateSwapPoolData data.payload rCoins)
  | _ => Go.ret (none, some (GoError.errorsNew "unknown tx type"))

/-- An example of the external encoders: every message is built without panic and
wrapped without error. -/
def exampleProto : Proto :=
  { message := fun _ d _ => Go.ret { name := "pb", fields := d.bytes }
    VoteCommissionCoin := fun _ => 0
    VoteCommissionData := fun d _ => Go.ret { name := "VoteCommissionData", fields := d.bytes }
    New := fun m => (some { typeUrl := m.name, value := m.fields }, none) }

/-! ## `tree/tree.go` -/

/-- The value of a Go `int` expression on a 64-bit platform: the integer wrapped to
the range of `int64`. -/
def wrapInt64 (x : Int) : Int := (x + 2 ^ 63) % 2 ^ 64 - 2 ^ 63

/-- The loop of `KeepLastHeight` (lines 167-172), from the current value of `prev`. -/
def KeepLastHeight.loop (prev : Int) : List Int → Int
  | [] => prev
  | version :: rest =>
    if wrapInt64 (version - prev) = 1 then prev
    else KeepLastHeight.loop version rest

/-- The method `mutableTree.KeepLastHeight`, as a function of the list
`t.tree.AvailableVersions()` returns. -/
def KeepLastHeight (versions : List Int) : Int :=
  KeepLastHeight.loop 1 versions

/-- The result as the claim words it: the running previous value of an element is 1
for the first element and the element before it otherwise; the result is the previous
value at the first element that is exactly one greater than it, or the last element
when there is none, or 1 for the empty list. -/
def specKeepLastHeight (vs : List Int) : Int :=
  match (List.zip (1 :: vs) vs).find? fun pv => pv.2 = pv.1 + 1 with
  | some pv => pv.1
  | none => vs.getLast?.getD 1

end Minter

namespace Minter

/-! ## Edit-candidate-commission: `basicCheck` -/

/-- Once the ownership check has passed and the candidate is found, `basicCheck` is
the two comparisons of lines 43 and 51. -/
theorem edit_basicCheck_of_owner (env : Env)
    (data : EditCandidateCommission) (tx : Transaction) (cs : CheckState) (block : Nat)
    (candidate : Candidate)
    (hown : env.checkCandidateOwnership data.PubKey tx cs = none)
    (hc : cs.state.Candidates.GetCandidate data.PubKey = some candidate) :
    data.basicCheck env tx cs block =
      if data.Commission < minNewCommission env candidate.Commission
          ∨ data.Commission > maxNewCommission env candidate.Commission then
        Go.ret (some (wrongCommissionResponse env candidate data))
      else if nextEditHeight env candidate > block then
        Go.ret (some (periodLimitResponse env candidate))
      else Go.ret none := by
  simp only [EditCandidateCommission.basicCheck, EditCandidateCommission.GetPubKey, hown, hc]

/-- The upper end of the band never exceeds `maxCommission`. -/
theorem maxNewCommission_le (env : Env) (c : Nat) : maxNewCommission env c ≤ env.maxCommission := by
  unfold maxNewCommission
  split <;> omega

/-- The lower end of the band is never below `minCommission`. -/
theorem minNewCommission_ge (env : Env) (c : Nat) : env.minCommission ≤ minNewCommission env c := by
  unfold minNewCommission
  split <;> omega

/-- Where neither `c-10` nor `c+10` wraps around, the band of the code is the band of
the specification. -/
theorem band_eq_spec_of_no_wrap (env : Env) (c : Nat) (hlo : 10 ≤ c) (hhi : c + 10 < 2 ^ 32) :
    (minNewCommission env c : Int) = specMinNewCommission env c
      ∧ (maxNewCommission env c : Int) = specMaxNewCommission env c := by
  have h1 : (c + 2 ^ 32 - 10) % 2 ^ 32 = c - 10 := by omega
  have h2 : (c + 10) % 2 ^ 32 = c + 10 := by omega
  unfold minNewCommission maxNewCommission specMinNewCommission specMaxNewCommission
  rw [h1, h2]
  constructor
  · split <;> omega
  · split <;> omega

/-- Below a current commission of 10 the subtraction wraps: the lower end of the band
is `2^32 - 10 + c`, above every commission up to `maxCommission`. -/
theorem minNewCommission_of_lt_ten (env : Env) (c : Nat) (hc : c < 10)
    (hmin : env.minCommission ≤ 2 ^ 32 - 10) :
    minNewCommission env c = 2 ^ 32 - 10 + c := by
  have h1 : (c + 2 ^ 32 - 10) % 2 ^ 32 = 2 ^ 32 - 10 + c := by omega
  unfold minNewCommission
  rw [h1]
  split <;> omega

/-- C1 (code evaluated at the failing input): with `minCommission = 0` and
`maxCommission = 100`, the owner of a candidate whose commission is 5 asks for 7. The
request lies inside the band `[max(0, 5-10), min(100, 5+10)] = [0, 15]` of ordinary
integer arithmetic, yet `basicCheck` rejects it with `WrongCommission`, because
`candidate.Commission-10` wraps around to `4294967291` in `uint32`. -/
theorem C1_in_band_request_rejected :
    exampleEnv.checkCandidateOwnership exampleKey (exampleTx 0)
        (NewCheckState (exampleState 5 100)) = none
      ∧ specMinNewCommission exampleEnv 5 ≤ 7
      ∧ (7 : Int) ≤ specMaxNewCommission exampleEnv 5
      ∧ minNewCommission exampleEnv 5 = 4294967291
      ∧ codeOf (EditCandidateCommission.basicCheck exampleEnv
          { PubKey := exampleKey, Commission := 7 } (exampleTx 0)
          (NewCheckState (exampleState 5 100)) 10000000)
        = Go.ret (some Code.WrongCommission) := by
  refine ⟨by decide, by decide, by decide, by decide, by decide⟩

/-- C4: every edit that `basicCheck` admits asks for a commission `r` with
`minCommission ≤ r ≤ maxCommission` and `|r - c| ≤ 10`, for every `uint32` value `c`
of the current commission, the wrapping ones included (there nothing is admitted). -/
theorem C4_admitted_edit_within_bounds (env : Env) (data : EditCandidateCommission)
    (tx : Transaction) (cs : CheckState) (block : Nat) (candidate : Candidate)
    (hc : cs.state.Candidates.GetCandidate data.PubKey = some candidate)
    (h32 : candidate.Commission < 2 ^ 32)
    (hadm : data.basicCheck env tx cs block = Go.ret none) :
    env.minCommission ≤ data.Commission ∧ data.Commission ≤ env.maxCommission
      ∧ data.Commission ≤ candidate.Commission + 10
      ∧ candidate.Commission ≤ data.Commission + 10 := by
  have hband : ¬ (data.Commission < minNewCommission env candidate.Commission
      ∨ data.Commission > maxNewCommission env candidate.Commission) := by
    intro hb
    unfold EditCandidateCommission.basicCheck at hadm
    rw [EditCandidateCommission.GetPubKey] at hadm
    cases hown : env.checkCandidateOwnership data.PubKey tx cs with
    | some r => simp [hown] at hadm
    | none => simp [hown, hc, hb] at hadm
  have hlo := minNewCommission_ge env candidate.Commission
  have hhi := maxNewCommission_le env candidate.Commission
  have hmin : (candidate.Commission + 2 ^ 32 - 10) % 2 ^ 32 ≤ minNewCommission env candidate.Commission := by
    unfold minNewCommission
    split <;> omega
  have hmax : maxNewCommission env candidate.Commission ≤ (candidate.Commission + 10) % 2 ^ 32 := by
    unfold maxNewCommission
    split <;> omega
  omega

/-- Witness of C4: a candidate at commission 20 whose owner asks for 25, long after
the last edit. -/
theorem C4_admitted_edit_within_bounds_witness :
    exampleEnv.minCommission ≤ 25 ∧ 25 ≤ exampleEnv.maxCommission ∧ 25 ≤ 20 + 10
      ∧ 20 ≤ 25 + 10 :=
  C4_admitted_edit_within_bounds exampleEnv { PubKey := exampleKey, Commission := 25 }
    (exampleTx 0) (NewCheckState (exampleState 20 100)) 10000000
    { PubKey := exampleKey, RewardAddress := exampleOwner, OwnerAddress := exampleOwner,
      ControlAddress := exampleOwner, Commission := 20, Status := 2,
      LastEditCommissionHeight := 100 }
    (by decide) (by decide) (by decide)

/-- Where the `uint64` sum does not wrap, `nextEditHeight` is
`lastEditCommissionHeight + 3 * unbondingPeriod`. -/
theorem nextEditHeight_of_no_wrap (env : Env) (candidate : Candidate)
    (h : candidate.LastEditCommissionHeight + 3 * env.GetUnbondPeriod < 2 ^ 64) :
    nextEditHeight env candidate
      = candidate.LastEditCommissionHeight + 3 * env.GetUnbondPeriod := by
  unfold nextEditHeight
  omega

/-- C3: for a transaction that passes the ownership check and the commission-band
check, `basicCheck` rejects with `PeriodLimitReached` exactly when
`currentBlock < lastEditCommissionHeight + 3*unbondingPeriod` (the `uint64` sum the
code computes, which is the ordinary sum whenever that is below `2^64`), and
otherwise admits the transaction by returning no response. -/
theorem C3_period_limit_iff (env : Env) (data : EditCandidateCommission) (tx : Transaction)
    (cs : CheckState) (block : Nat) (candidate : Candidate)
    (hown : env.checkCandidateOwnership data.PubKey tx cs = none)
    (hc : cs.state.Candidates.GetCandidate data.PubKey = some candidate)
    (hband : minNewCommission env candidate.Commission ≤ data.Commission
      ∧ data.Commission ≤ maxNewCommission env candidate.Commission) :
    (codeOf (data.basicCheck env tx cs block) = Go.ret (some Code.PeriodLimitReached)
        ↔ block < nextEditHeight env candidate)
      ∧ (block < nextEditHeight env candidate →
          data.basicCheck env tx cs block = Go.ret (some (periodLimitResponse env candidate)))
      ∧ (¬ block < nextEditHeight env candidate → data.basicCheck env tx cs block = Go.ret none)
      ∧ (candidate.LastEditCommissionHeight + 3 * env.GetUnbondPeriod < 2 ^ 64 →
          (codeOf (data.basicCheck env tx cs block) = Go.ret (some Code.PeriodLimitReached)
            ↔ block < candidate.LastEditCommissionHeight + 3 * env.GetUnbondPeriod)) := by
  have hb : ¬ (data.Commission < minNewCommission env candidate.Commission
      ∨ data.Commission > maxNewCommission env candidate.Commission) := by omega
  have key := edit_basicCheck_of_owner env data tx cs block candidate hown hc
  rw [if_neg hb] at key
  have hiff : codeOf (data.basicCheck env tx cs block) = Go.ret (some Code.PeriodLimitReached)
      ↔ block < nextEditHeight env candidate := by
    rw [key]
    by_cases hlt : nextEditHeight env candidate > block
    · simp [hlt, codeOf, Go.map, periodLimitResponse]
    · simp [hlt, codeOf, Go.map]
  refine ⟨hiff, ?_, ?_, ?_⟩
  · intro hlt
    rw [key, if_pos hlt]
  · intro hge
    rw [key, if_neg hge]
  · intro hno
    rw [hiff, nextEditHeight_of_no_wrap env candidate hno]

/-- Witness of C3: commission 20, last edited at height 100; a request for 25 at height
`100 + 3 * 518400 - 1`. -/
theorem C3_period_limit_iff_witness :
    (codeOf (EditCandidateCommission.basicCheck exampleEnv
          { PubKey := exampleKey, Commission := 25 } (exampleTx 0)
          (NewCheckState (exampleState 20 100)) 1555299)
        = Go.ret (some Code.PeriodLimitReached)
        ↔ 1555299 < nextEditHeight exampleEnv
            { PubKey := exampleKey, RewardAddress := exampleOwner, OwnerAddress := exampleOwner,
              ControlAddress := exampleOwner, Commission := 20, Status := 2,
              LastEditCommissionHeight := 100 }) :=
  (C3_period_limit_iff exampleEnv { PubKey := exampleKey, Commission := 25 } (exampleTx 0)
    (NewCheckState (exampleState 20 100)) 1555299
    { PubKey := exampleKey, RewardAddress := exampleOwner, OwnerAddress := exampleOwner,
      ControlAddress := exampleOwner, Commission := 20, Status := 2,
      LastEditCommissionHeight := 100 }
    (by decide) (by decide) (by decide)).1

/-- The example configuration rejects with error codes only. -/
theorem exampleEnv_errorsAreNotOK : exampleEnv.ErrorsAreNotOK := by
  refine ⟨?_, ?_, ?_⟩
  · intro pubkey tx cs r h
    simp only [exampleEnv] at h
    split at h
    · cases h; simp
    · split at h
      · cases h
      · cases h; simp
  · intro cs swapper gasCoin amount r h
    simp only [exampleEnv] at h
    split at h
    · cases h; simp
    · split at h
      · cases h
      · split at h
        · cases h
        · split at h
          · cases h; simp
          · cases h
  · intro coin delta r h
    simp only [exampleEnv] at h
    split at h
    · cases h; simp
    · cases h

/-- A response of `basicCheck` never has the code `OK`. -/
theorem edit_basicCheck_code_ne_OK (env : Env) (henv : env.ErrorsAreNotOK)
    (data : EditCandidateCommission) (tx : Transaction) (cs : CheckState) (block : Nat)
    (r : Response) (h : data.basicCheck env tx cs block = Go.ret (some r)) :
    r.Code ≠ Code.OK := by
  unfold EditCandidateCommission.basicCheck at h
  cases hown : env.checkCandidateOwnership data.GetPubKey tx cs with
  | some e =>
    simp only [hown, Go.ret.injEq, Option.some.injEq] at h
    subst h
    exact henv.1 _ _ _ _ hown
  | none =>
    simp only [hown] at h
    cases hc : cs.state.Candidates.GetCandidate data.PubKey with
    | none => simp [hc] at h
    | some candidate =>
      simp only [hc] at h
      split at h
      · simp only [Go.ret.injEq, Option.some.injEq] at h
        subst h
        simp [wrongCommissionResponse]
      · split at h
        · simp only [Go.ret.injEq, Option.some.injEq] at h
          subst h
          simp [periodLimitResponse]
        · simp at h

/-- When `basicCheck` admits the transaction the candidate exists. -/
theorem edit_candidate_of_admitted (env : Env)
    (data : EditCandidateCommission) (tx : Transaction) (cs : CheckState) (block : Nat)
    (h : data.basicCheck env tx cs block = Go.ret none) :
    ∃ candidate, cs.state.Candidates.GetCandidate data.PubKey = some candidate := by
  unfold EditCandidateCommission.basicCheck at h
  cases hown : env.checkCandidateOwnership data.GetPubKey tx cs with
  | some e => simp [hown] at h
  | none =>
    cases hc : cs.state.Candidates.GetCandidate data.PubKey with
    | none => simp [hown, hc] at h
    | some candidate => exact ⟨candidate, rfl⟩

/-! ## Edit-candidate-commission: `Run` -/

/-- A rejection of `basicCheck` is what `Run` returns, and nothing is touched. -/
theorem edit_Run_of_rejected (env : Env) (data : EditCandidateCommission)
    (tx : Transaction) (context : Context) (rewardPool : Int) (currentBlock : Nat)
    (price gas : Int) (r : Response)
    (h : data.basicCheck env tx (NewCheckState context.state) currentBlock = Go.ret (some r)) :
    data.Run env tx context rewardPool currentBlock price gas
      = Go.ret (RunResult.untouched r context rewardPool) := by
  cases context with
  | check cs =>
    simp only [Context.state, NewCheckState] at h
    simp only [EditCandidateCommission.Run, h]
  | deliver s =>
    simp only [Context.state] at h
    simp only [EditCandidateCommission.Run, h]

/-- The applied path of `Run`: admitted by `basicCheck`, the commission computed without
error and covered by the balance, in a deliver context. -/
theorem edit_Run_deliver_applied (env : Env)
    (data : EditCandidateCommission) (tx : Transaction) (st : State) (rewardPool : Int)
    (currentBlock : Nat) (price gas : Int) (commission : Int) (fromPool : Bool)
    (hadm : data.basicCheck env tx (NewCheckState st) currentBlock = Go.ret none)
    (hcalc : env.CalculateCommission (NewCheckState st)
        (st.Swap.GetSwapper tx.GasCoin env.GetBaseCoinID) (st.Coins.GetCoin tx.GasCoin)
        (env.CommissionInBaseCoinAt tx price) = (commission, fromPool, none))
    (hbal : ¬ st.Accounts.GetBalance tx.Sender tx.GasCoin < commission) :
    data.Run env tx (Context.deliver st) rewardPool currentBlock price gas
      = Go.ret
          { response := EditCandidateCommission.okResponse env tx gas
              (data.apply env tx { state := st, rewardPool := rewardPool, issued := [] }
                currentBlock commission (env.CommissionInBaseCoinAt tx price) fromPool).1.1
              (data.apply env tx { state := st, rewardPool := rewardPool, issued := [] }
                currentBlock commission (env.CommissionInBaseCoinAt tx price) fromPool).1.2
              fromPool
            state := (data.apply env tx { state := st, rewardPool := rewardPool, issued := [] }
                currentBlock commission (env.CommissionInBaseCoinAt tx price) fromPool).2.state
            rewardPool := (data.apply env tx
                { state := st, rewardPool := rewardPool, issued := [] }
                currentBlock commission (env.CommissionInBaseCoinAt tx price) fromPool).2.rewardPool
            issued := (data.apply env tx { state := st, rewardPool := rewardPool, issued := [] }
                currentBlock commission (env.CommissionInBaseCoinAt tx price) fromPool).2.issued } := by
  have hcalc2 := hcalc
  simp only [NewCheckState] at hadm hcalc2
  simp only [EditCandidateCommission.Run, NewCheckState, hadm, hcalc2, hbal, if_false]

/-- Every `Run` that returns `OK` in a deliver context went through the applied path. -/
theorem edit_Run_deliver_ok_inv (env : Env) (henv : env.ErrorsAreNotOK)
    (data : EditCandidateCommission) (tx : Transaction) (st : State) (rewardPool : Int)
    (currentBlock : Nat) (price gas : Int) (res : RunResult)
    (hrun : data.Run env tx (Context.deliver st) rewardPool currentBlock price gas = Go.ret res)
    (hok : res.response.Code = Code.OK) :
    ∃ commission fromPool,
      data.basicCheck env tx (NewCheckState st) currentBlock = Go.ret none
      ∧ env.CalculateCommission (NewCheckState st)
          (st.Swap.GetSwapper tx.GasCoin env.GetBaseCoinID) (st.Coins.GetCoin tx.GasCoin)
          (env.CommissionInBaseCoinAt tx price) = (commission, fromPool, none)
      ∧ ¬ st.Accounts.GetBalance tx.Sender tx.GasCoin < commission := by
  cases hb : data.basicCheck env tx (NewCheckState st) currentBlock with
  | panic =>
    simp only [NewCheckState] at hb
    simp [EditCandidateCommission.Run, NewCheckState, hb] at hrun
  | ret o =>
    cases o with
    | some r =>
      have hne := edit_basicCheck_code_ne_OK env henv data tx _ _ r hb
      rw [edit_Run_of_rejected env data tx (Context.deliver st) rewardPool
        currentBlock price gas r hb] at hrun
      simp only [Go.ret.injEq] at hrun
      subst hrun
      exact absurd hok hne
    | none =>
      rcases hcalc : env.CalculateCommission (NewCheckState st)
          (st.Swap.GetSwapper tx.GasCoin env.GetBaseCoinID) (st.Coins.GetCoin tx.GasCoin)
          (env.CommissionInBaseCoinAt tx price) with ⟨commission, fromPool, e⟩
      have hb2 := hb
      have hcalc2 := hcalc
      simp only [NewCheckState] at hb2 hcalc2
      cases e with
      | some errResp =>
        have hne := henv.2.1 _ _ _ _ errResp (by rw [hcalc])
        simp only [EditCandidateCommission.Run, NewCheckState, hb2, hcalc2, Go.ret.injEq] at hrun
        subst hrun
        exact absurd hok hne
      | none =>
        refine ⟨commission, fromPool, rfl, rfl, ?_⟩
        intro hlt
        simp only [EditCandidateCommission.Run, NewCheckState, hb2, hcalc2, hlt, if_true] at hrun
        cases hg : st.Coins.GetCoin tx.GasCoin with
        | none => simp [hg] at hrun
        | some coin =>
          simp only [hg, Go.ret.injEq] at hrun
          subst hrun
          simp [RunResult.untouched, insufficientFundsResponse] at hok

/-- The effects of the edit handler on the candidates: only `EditCommission` touches
them. -/
theorem edit_apply_candidates (env : Env) (data : EditCandidateCommission)
    (tx : Transaction) (d : Deliver) (currentBlock : Nat) (commission cib : Int)
    (fromPool : Bool) (pubkey : Pubkey) :
    (data.apply env tx d currentBlock commission cib fromPool).2.state.Candidates.GetCandidate
        pubkey
      = if pubkey = data.PubKey then
          (d.state.Candidates.GetCandidate pubkey).map fun c =>
            { c with Commission := data.Commission, LastEditCommissionHeight := currentBlock }
        else d.state.Candidates.GetCandidate pubkey := by
  unfold EditCandidateCommission.apply
  cases fromPool with
  | true =>
    simp [Deliver.PairSell, Deliver.SubBalance, Deliver.AddRewardPool, Deliver.EditCommission,
      Deliver.SetNonce, CandidatesState.GetCandidate]
  | false =>
    by_cases hbase : IsBaseCoin env tx.GasCoin = true
    · simp [hbase, Deliver.SubBalance, Deliver.AddRewardPool, Deliver.EditCommission,
        Deliver.SetNonce, CandidatesState.GetCandidate]
    · simp [hbase, Deliver.SubVolume, Deliver.SubReserve, Deliver.SubBalance,
        Deliver.AddRewardPool, Deliver.EditCommission, Deliver.SetNonce,
        CandidatesState.GetCandidate]

/-- The commission the edit handler debits: what `PairSell` returns as its first amount
when the pool is used, the computed commission otherwise. -/
theorem edit_apply_commission (env : Env) (data : EditCandidateCommission)
    (tx : Transaction) (d : Deliver) (currentBlock : Nat) (commission cib : Int)
    (fromPool : Bool) :
    (data.apply env tx d currentBlock commission cib fromPool).1
      = if fromPool then
          (env.PairSell d.state.Swap tx.GasCoin env.GetBaseCoinID commission cib).1
        else (commission, cib) := by
  unfold EditCandidateCommission.apply
  cases fromPool with
  | true => simp [Deliver.PairSell]
  | false =>
    by_cases hbase : IsBaseCoin env tx.GasCoin = true
    · simp [hbase]
    · simp [hbase]

/-- The effects of the edit handler on the balances: one debit, of the sender, in the gas
coin, by the final commission. -/
theorem edit_apply_balance (env : Env) (data : EditCandidateCommission)
    (tx : Transaction) (d : Deliver) (currentBlock : Nat) (commission cib : Int)
    (fromPool : Bool) (address : Address) (coin : CoinID) :
    (data.apply env tx d currentBlock commission cib fromPool).2.state.Accounts.GetBalance
        address coin
      = if address = tx.Sender ∧ coin = tx.GasCoin then
          d.state.Accounts.GetBalance address coin
            - (data.apply env tx d currentBlock commission cib fromPool).1.1
        else d.state.Accounts.GetBalance address coin := by
  unfold EditCandidateCommission.apply
  cases fromPool with
  | true =>
    simp [Deliver.PairSell, Deliver.SubBalance, Deliver.AddRewardPool, Deliver.EditCommission,
      Deliver.SetNonce, AccountsState.GetBalance]
  | false =>
    by_cases hbase : IsBaseCoin env tx.GasCoin = true
    · simp [hbase, Deliver.SubBalance, Deliver.AddRewardPool, Deliver.EditCommission,
        Deliver.SetNonce, AccountsState.GetBalance]
    · simp [hbase, Deliver.SubVolume, Deliver.SubReserve, Deliver.SubBalance,
        Deliver.AddRewardPool, Deliver.EditCommission, Deliver.SetNonce,
        AccountsState.GetBalance]

/-- The effect of the edit handler on the reward pool: one credit, by the final
commission in base coin. -/
theorem edit_apply_rewardPool (env : Env) (data : EditCandidateCommission)
    (tx : Transaction) (d : Deliver) (currentBlock : Nat) (commission cib : Int)
    (fromPool : Bool) :
    (data.apply env tx d currentBlock commission cib fromPool).2.rewardPool
      = d.rewardPool + (data.apply env tx d currentBlock commission cib fromPool).1.2 := by
  unfold EditCandidateCommission.apply
  cases fromPool with
  | true =>
    simp [Deliver.PairSell, Deliver.SubBalance, Deliver.AddRewardPool, Deliver.EditCommission,
      Deliver.SetNonce]
  | false =>
    by_cases hbase : IsBaseCoin env tx.GasCoin = true
    · simp [hbase, Deliver.SubBalance, Deliver.AddRewardPool, Deliver.EditCommission,
        Deliver.SetNonce]
    · simp [hbase, Deliver.SubVolume, Deliver.SubReserve, Deliver.SubBalance,
        Deliver.AddRewardPool, Deliver.EditCommission, Deliver.SetNonce]

/-- The mutator calls the edit handler issues, in order. -/
theorem edit_apply_issued (env : Env) (data : EditCandidateCommission)
    (tx : Transaction) (d : Deliver) (currentBlock : Nat) (commission cib : Int)
    (fromPool : Bool) :
    (data.apply env tx d currentBlock commission cib fromPool).2.issued
      = d.issued
        ++ (if fromPool then [Op.PairSell tx.GasCoin env.GetBaseCoinID commission cib]
            else if IsBaseCoin env tx.GasCoin then []
            else [Op.SubVolume tx.GasCoin commission, Op.SubReserve tx.GasCoin cib])
        ++ [Op.SubBalance tx.Sender tx.GasCoin
              (data.apply env tx d currentBlock commission cib fromPool).1.1,
            Op.AddRewardPool (data.apply env tx d currentBlock commission cib fromPool).1.2,
            Op.EditCommission data.PubKey data.Commission currentBlock,
            Op.SetNonce tx.Sender tx.Nonce] := by
  unfold EditCandidateCommission.apply
  cases fromPool with
  | true =>
    simp [Deliver.PairSell, Deliver.SubBalance, Deliver.AddRewardPool, Deliver.EditCommission,
      Deliver.SetNonce]
  | false =>
    by_cases hbase : IsBaseCoin env tx.GasCoin = true
    · simp [hbase, Deliver.SubBalance, Deliver.AddRewardPool, Deliver.EditCommission,
        Deliver.SetNonce]
    · simp [hbase, Deliver.SubVolume, Deliver.SubReserve, Deliver.SubBalance,
        Deliver.AddRewardPool, Deliver.EditCommission, Deliver.SetNonce]

/-- C5: when `Run` returns `OK` in a deliver context at height `h`, the candidate
`data.PubKey` afterwards has commission `data.Commission` and
`lastEditCommissionHeight` equal to `h`; the handler has issued
`EditCommission(data.PubKey, data.Commission, h)`. -/
theorem C5_run_sets_commission_and_height (env : Env) (henv : env.ErrorsAreNotOK)
    (data : EditCandidateCommission) (tx : Transaction) (st : State) (rewardPool : Int)
    (h : Nat) (price gas : Int) (res : RunResult)
    (hrun : data.Run env tx (Context.deliver st) rewardPool h price gas = Go.ret res)
    (hok : res.response.Code = Code.OK) :
    (∃ candidate, res.state.Candidates.GetCandidate data.PubKey = some candidate
        ∧ candidate.Commission = data.Commission
        ∧ candidate.LastEditCommissionHeight = h)
      ∧ Op.EditCommission data.PubKey data.Commission h ∈ res.issued := by
  obtain ⟨commission, fromPool, hadm, hcalc, hbal⟩ :=
    edit_Run_deliver_ok_inv env henv data tx st rewardPool h price gas res
      hrun hok
  rw [edit_Run_deliver_applied env data tx st rewardPool h price gas
    commission fromPool hadm hcalc hbal] at hrun
  simp only [Go.ret.injEq] at hrun
  subst hrun
  obtain ⟨candidate, hc⟩ := edit_candidate_of_admitted env data tx _ h hadm
  simp only [NewCheckState] at hc
  constructor
  · refine ⟨{ candidate with Commission := data.Commission, LastEditCommissionHeight := h },
      ?_, rfl, rfl⟩
    simp only []
    rw [edit_apply_candidates]
    simp [hc]
  · simp only []
    rw [edit_apply_issued]
    simp

/-- Witness of C5: the owner of the example candidate (commission 20, last edited at
height 100) sets it to 30 at height 1555300. -/
theorem C5_run_sets_commission_and_height_witness :
    ∃ res,
      EditCandidateCommission.Run exampleEnv { PubKey := exampleKey, Commission := 30 }
          (exampleTx 0) (Context.deliver (exampleState 20 100)) 0 1555300 10 7 = Go.ret res
      ∧ res.response.Code = Code.OK
      ∧ (∃ candidate, res.state.Candidates.GetCandidate exampleKey = some candidate
          ∧ candidate.Commission = 30
          ∧ candidate.LastEditCommissionHeight = 1555300)
      ∧ Op.EditCommission exampleKey 30 1555300 ∈ res.issued :=
  ⟨_, rfl, rfl,
    C5_run_sets_commission_and_height exampleEnv exampleEnv_errorsAreNotOK
      { PubKey := exampleKey, Commission := 30 } (exampleTx 0) (exampleState 20 100) 0 1555300
      10 7 _ rfl rfl⟩

/-- C2 (counterexample): with the unbond period 518400, commission 20 last edited at
height 100, the owner's request for 35 is rejected with `WrongCommission`, not with
`PeriodLimitReached`, at height `100+3U-1`; at height `100+3U` `Run` rejects it with
`WrongCommission` again instead of succeeding, and the commission stays 20 instead of
becoming `min(maxCommission, 30) = 30`. -/
theorem C2_out_of_band_request_rejected :
    codeOf (EditCandidateCommission.basicCheck exampleEnv
        { PubKey := exampleKey, Commission := 35 } (exampleTx 0)
        (NewCheckState (exampleState 20 100)) (100 + 3 * exampleEnv.GetUnbondPeriod - 1))
      = Go.ret (some Code.WrongCommission)
    ∧ codeOf (EditCandidateCommission.basicCheck exampleEnv
        { PubKey := exampleKey, Commission := 35 } (exampleTx 0)
        (NewCheckState (exampleState 20 100)) (100 + 3 * exampleEnv.GetUnbondPeriod - 1))
      ≠ Go.ret (some Code.PeriodLimitReached)
    ∧ (EditCandidateCommission.Run exampleEnv { PubKey := exampleKey, Commission := 35 }
        (exampleTx 0) (Context.deliver (exampleState 20 100)) 0
        (100 + 3 * exampleEnv.GetUnbondPeriod) 10 7).map
        (fun res => (res.response.Code,
          (res.state.Candidates.GetCandidate exampleKey).map fun c => c.Commission))
      = Go.ret (Code.WrongCommission, some 20)
    ∧ min exampleEnv.maxCommission 30 = 30 := by
  refine ⟨by decide, by decide, by decide, by decide⟩

/-- At a current commission of 20 nothing wraps: the band is
`[max(minCommission, 10), min(maxCommission, 30)]`. -/
theorem band_at_twenty (env : Env) :
    minNewCommission env 20 = max env.minCommission 10
      ∧ maxNewCommission env 20 = min env.maxCommission 30 := by
  unfold minNewCommission maxNewCommission
  constructor
  · split <;> omega
  · split <;> omega

/-- C2 (amended): for a candidate with commission 20 and `lastEditCommissionHeight`
100, and an unbond period `U` with `100+3U < 2^64`: the owner's request for 35 is
rejected with `WrongCommission` at every height, `100+3U-1` and `100+3U` included,
and `Run` leaves the ledger as it was; a request `r` inside the band
`[max(minCommission,10), min(maxCommission,30)]` is rejected with
`PeriodLimitReached` at height `100+3U-1`, is admitted at height `100+3U`, and when
its commission is computed without error and covered by the sender's balance, `Run`
returns `OK` in a deliver context and the candidate's commission becomes `r`. -/
theorem C2_rate_limit_scenario (env : Env) (pubkey : Pubkey) (tx : Transaction) (st : State)
    (candidate : Candidate) (rewardPool price gas : Int)
    (hown : env.checkCandidateOwnership pubkey tx (NewCheckState st) = none)
    (hc : st.Candidates.GetCandidate pubkey = some candidate)
    (hcom : candidate.Commission = 20)
    (hlast : candidate.LastEditCommissionHeight = 100)
    (hno : 100 + 3 * env.GetUnbondPeriod < 2 ^ 64) :
    (∀ block,
        EditCandidateCommission.basicCheck env { PubKey := pubkey, Commission := 35 } tx
            (NewCheckState st) block
          = Go.ret (some (wrongCommissionResponse env candidate
              { PubKey := pubkey, Commission := 35 }))
        ∧ EditCandidateCommission.Run env { PubKey := pubkey, Commission := 35 } tx
            (Context.deliver st) rewardPool block price gas
          = Go.ret (RunResult.untouched (wrongCommissionResponse env candidate
              { PubKey := pubkey, Commission := 35 }) (Context.deliver st) rewardPool))
    ∧ (∀ r, max env.minCommission 10 ≤ r → r ≤ min env.maxCommission 30 →
        EditCandidateCommission.basicCheck env { PubKey := pubkey, Commission := r } tx
            (NewCheckState st) (100 + 3 * env.GetUnbondPeriod - 1)
          = Go.ret (some (periodLimitResponse env candidate))
        ∧ EditCandidateCommission.basicCheck env { PubKey := pubkey, Commission := r } tx
            (NewCheckState st) (100 + 3 * env.GetUnbondPeriod) = Go.ret none
        ∧ ∀ commission fromPool,
            env.CalculateCommission (NewCheckState st)
                (st.Swap.GetSwapper tx.GasCoin env.GetBaseCoinID) (st.Coins.GetCoin tx.GasCoin)
                (env.CommissionInBaseCoinAt tx price) = (commission, fromPool, none) →
            ¬ st.Accounts.GetBalance tx.Sender tx.GasCoin < commission →
            ∃ res,
              EditCandidateCommission.Run env { PubKey := pubkey, Commission := r } tx
                  (Context.deliver st) rewardPool (100 + 3 * env.GetUnbondPeriod) price gas
                = Go.ret res
              ∧ res.response.Code = Code.OK
              ∧ (res.state.Candidates.GetCandidate pubkey).map (fun c => c.Commission)
                = some r) := by
  have hband := band_at_twenty env
  have hnext : nextEditHeight env candidate = 100 + 3 * env.GetUnbondPeriod := by
    rw [nextEditHeight_of_no_wrap env candidate (by rw [hlast]; exact hno), hlast]
  constructor
  · intro block
    have hb : EditCandidateCommission.basicCheck env { PubKey := pubkey, Commission := 35 } tx
        (NewCheckState st) block
        = Go.ret (some (wrongCommissionResponse env candidate
            { PubKey := pubkey, Commission := 35 })) := by
      rw [edit_basicCheck_of_owner env _ tx _ block candidate hown hc]
      rw [if_pos]
      right
      rw [hcom, hband.2]
      show 35 > min env.maxCommission 30
      omega
    exact ⟨hb, edit_Run_of_rejected env _ tx (Context.deliver st) rewardPool
      block price gas _ hb⟩
  · intro r hlo hhi
    have hin : ¬ (r < minNewCommission env candidate.Commission
        ∨ r > maxNewCommission env candidate.Commission) := by
      rw [hcom, hband.1, hband.2]
      omega
    have hadm : EditCandidateCommission.basicCheck env { PubKey := pubkey, Commission := r } tx
        (NewCheckState st) (100 + 3 * env.GetUnbondPeriod) = Go.ret none := by
      rw [edit_basicCheck_of_owner env _ tx _ _ candidate hown hc]
      rw [if_neg hin, hnext, if_neg (by omega)]
    refine ⟨?_, hadm, ?_⟩
    · rw [edit_basicCheck_of_owner env _ tx _ _ candidate hown hc]
      rw [if_neg hin, hnext, if_pos (by omega)]
    · intro commission fromPool hcalc hbal
      refine ⟨_, edit_Run_deliver_applied env _ tx st rewardPool _ price gas
        commission fromPool hadm hcalc hbal, rfl, ?_⟩
      simp only []
      rw [edit_apply_candidates]
      simp [hc]

/-- Witness of C2 (amended): the example candidate at commission 20, last edited at
height 100, with the unbond period 518400. -/
theorem C2_rate_limit_scenario_witness :
    codeOf (EditCandidateCommission.basicCheck exampleEnv
        { PubKey := exampleKey, Commission := 30 } (exampleTx 0)
        (NewCheckState (exampleState 20 100)) (100 + 3 * exampleEnv.GetUnbondPeriod - 1))
      = Go.ret (some Code.PeriodLimitReached)
    ∧ EditCandidateCommission.basicCheck exampleEnv
        { PubKey := exampleKey, Commission := 30 } (exampleTx 0)
        (NewCheckState (exampleState 20 100)) (100 + 3 * exampleEnv.GetUnbondPeriod)
      = Go.ret none := by
  have h := (C2_rate_limit_scenario exampleEnv exampleKey (exampleTx 0) (exampleState 20 100)
    { PubKey := exampleKey, RewardAddress := exampleOwner, OwnerAddress := exampleOwner,
      ControlAddress := exampleOwner, Commission := 20, Status := 2,
      LastEditCommissionHeight := 100 } 0 10 7
    (by decide) (by decide) rfl rfl (by decide)).2 30 (by decide) (by decide)
  exact ⟨by rw [h.1]; rfl, h.2.1⟩

/-! ## Sell-all-swap-pool: `basicCheck` and `Run` -/

/-- A response of `SellAllSwapPool.basicCheck` is one of its two rejections. -/
theorem sellAll_basicCheck_cases (data : SellAllSwapPool) (tx : Transaction)
    (cs : CheckState) (r : Response) (h : data.basicCheck tx cs = some r) :
    r = identicalCoinResponse ∨ r = swapPoolNotFoundResponse := by
  unfold SellAllSwapPool.basicCheck at h
  split at h
  · left
    exact (Option.some.inj h).symm
  · split at h
    · right
      exact (Option.some.inj h).symm
    · cases h

/-- A rejection of `basicCheck` is what `Run` returns, and nothing is touched. -/
theorem sellAll_Run_of_rejected (env : Env) (data : SellAllSwapPool)
    (tx : Transaction) (context : Context) (rewardPool : Int) (currentBlock : Nat)
    (r : Response) (h : data.basicCheck tx (NewCheckState context.state) = some r) :
    data.Run env tx context rewardPool currentBlock
      = Go.ret (RunResult.untouched r context rewardPool) := by
  cases context with
  | check cs =>
    simp only [Context.state, NewCheckState] at h
    simp only [SellAllSwapPool.Run, h]
  | deliver s =>
    simp only [Context.state] at h
    simp only [SellAllSwapPool.Run, h]

/-- The applied path of `Run`: admitted by `basicCheck`, the commission computed without
error and covered by the balance, in a deliver context. -/
theorem sellAll_Run_deliver_applied (env : Env) (data : SellAllSwapPool)
    (tx : Transaction) (st : State) (rewardPool : Int) (currentBlock : Nat) (commission : Int)
    (hadm : data.basicCheck tx (NewCheckState st) = none)
    (hcom : SellAllSwapPool.commission env tx (st.Coins.GetCoin tx.GasCoin)
        (env.CommissionInBaseCoin tx) = Go.ret (Except.ok commission))
    (hbal : ¬ st.Accounts.GetBalance tx.Sender tx.GasCoin < commission) :
    data.Run env tx (Context.deliver st) rewardPool currentBlock
      = Go.ret
          { response := SellAllSwapPool.okResponse env tx
            state := (SellAllSwapPool.apply tx
              { state := st, rewardPool := rewardPool, issued := [] }
              commission (env.CommissionInBaseCoin tx)).state
            rewardPool := (SellAllSwapPool.apply tx
              { state := st, rewardPool := rewardPool, issued := [] }
              commission (env.CommissionInBaseCoin tx)).rewardPool
            issued := (SellAllSwapPool.apply tx
              { state := st, rewardPool := rewardPool, issued := [] }
              commission (env.CommissionInBaseCoin tx)).issued } := by
  simp only [NewCheckState] at hadm
  simp only [SellAllSwapPool.Run, NewCheckState, hadm, hcom, hbal, if_false]

/-- The insufficient-funds path of `Run`. -/
theorem sellAll_Run_insufficient (env : Env) (data : SellAllSwapPool)
    (tx : Transaction) (context : Context) (rewardPool : Int) (currentBlock : Nat)
    (commission : Int) (coin : Coin)
    (hadm : data.basicCheck tx (NewCheckState context.state) = none)
    (hcoin : context.state.Coins.GetCoin tx.GasCoin = some coin)
    (hcom : SellAllSwapPool.commission env tx (some coin) (env.CommissionInBaseCoin tx)
      = Go.ret (Except.ok commission))
    (hbal : context.state.Accounts.GetBalance tx.Sender tx.GasCoin < commission) :
    data.Run env tx context rewardPool currentBlock
      = Go.ret (RunResult.untouched (insufficientFundsResponse env tx.Sender commission coin)
          context rewardPool) := by
  cases context with
  | check cs =>
    simp only [Context.state, NewCheckState] at hadm hcoin hbal
    simp only [SellAllSwapPool.Run, hadm, hcoin, hcom, hbal, if_true]
  | deliver s =>
    simp only [Context.state, NewCheckState] at hadm hcoin hbal
    simp only [SellAllSwapPool.Run, NewCheckState, hadm, hcoin, hcom, hbal, if_true]

/-- The insufficient-funds path of `Run`, for the edit handler. -/
theorem edit_Run_insufficient (env : Env) (data : EditCandidateCommission)
    (tx : Transaction) (context : Context) (rewardPool : Int) (currentBlock : Nat)
    (price gas : Int) (commission : Int) (fromPool : Bool) (coin : Coin)
    (hadm : data.basicCheck env tx (NewCheckState context.state) currentBlock = Go.ret none)
    (hcoin : context.state.Coins.GetCoin tx.GasCoin = some coin)
    (hcalc : env.CalculateCommission (NewCheckState context.state)
        (context.state.Swap.GetSwapper tx.GasCoin env.GetBaseCoinID) (some coin)
        (env.CommissionInBaseCoinAt tx price) = (commission, fromPool, none))
    (hbal : context.state.Accounts.GetBalance tx.Sender tx.GasCoin < commission) :
    data.Run env tx context rewardPool currentBlock price gas
      = Go.ret (RunResult.untouched (insufficientFundsResponse env tx.Sender commission coin)
          context rewardPool) := by
  cases context with
  | check cs =>
    simp only [Context.state, NewCheckState] at hadm hcoin hbal hcalc
    simp only [EditCandidateCommission.Run, hadm, hcoin, hcalc, hbal, if_true]
  | deliver s =>
    simp only [Context.state, NewCheckState] at hadm hcoin hbal hcalc
    simp only [EditCandidateCommission.Run, NewCheckState, hadm, hcoin, hcalc, hbal, if_true]

/-- Every `Run` of the sell-all handler either returns a response and touches nothing, or
is the applied path: a deliver context and the code `OK`. -/
theorem sellAll_Run_untouched_or_applied (env : Env) (data : SellAllSwapPool)
    (tx : Transaction) (context : Context) (rewardPool : Int) (currentBlock : Nat)
    (res : RunResult) (hrun : data.Run env tx context rewardPool currentBlock = Go.ret res) :
    res = RunResult.untouched res.response context rewardPool
      ∨ (context.isDeliver = true ∧ res.response.Code = Code.OK) := by
  unfold SellAllSwapPool.Run at hrun
  simp only [] at hrun
  split at hrun
  · cases hrun; left; rfl
  · split at hrun
    · cases hrun
    · cases hrun; left; rfl
    · split at hrun
      · split at hrun
        · cases hrun
        · cases hrun; left; rfl
      · split at hrun
        · cases hrun; right; exact ⟨rfl, rfl⟩
        · cases hrun; left; rfl

/-- Every `Run` of the edit handler either returns a response and touches nothing, or is
the applied path: a deliver context and the code `OK`. -/
theorem edit_Run_untouched_or_applied (env : Env)
    (data : EditCandidateCommission) (tx : Transaction) (context : Context) (rewardPool : Int)
    (currentBlock : Nat) (price gas : Int) (res : RunResult)
    (hrun : data.Run env tx context rewardPool currentBlock price gas = Go.ret res) :
    res = RunResult.untouched res.response context rewardPool
      ∨ (context.isDeliver = true ∧ res.response.Code = Code.OK) := by
  unfold EditCandidateCommission.Run at hrun
  simp only [] at hrun
  split at hrun
  · cases hrun
  · cases hrun; left; rfl
  · split at hrun
    · cases hrun; left; rfl
    · split at hrun
      · split at hrun
        · cases hrun
        · cases hrun; left; rfl
      · split at hrun
        · cases hrun; right; exact ⟨rfl, rfl⟩
        · cases hrun; left; rfl

/-- After `basicCheck` has admitted the transaction, `Run` is lines 70-125. -/
theorem sellAll_Run_of_admitted (env : Env) (data : SellAllSwapPool)
    (tx : Transaction) (context : Context) (rewardPool : Int) (currentBlock : Nat)
    (hadm : data.basicCheck tx (NewCheckState context.state) = none) :
    data.Run env tx context rewardPool currentBlock
      = match SellAllSwapPool.commission env tx (context.state.Coins.GetCoin tx.GasCoin)
            (env.CommissionInBaseCoin tx) with
        | Go.panic => Go.panic
        | Go.ret (Except.error errResp) =>
          Go.ret (RunResult.untouched errResp context rewardPool)
        | Go.ret (Except.ok commission) =>
          if context.state.Accounts.GetBalance tx.Sender tx.GasCoin < commission then
            match context.state.Coins.GetCoin tx.GasCoin with
            | none => Go.panic
            | some coin =>
              Go.ret (RunResult.untouched
                (insufficientFundsResponse env tx.Sender commission coin) context rewardPool)
          else if context.isDeliver then
            Go.ret
              { response := SellAllSwapPool.okResponse env tx
                state := (SellAllSwapPool.apply tx
                  { state := context.state, rewardPool := rewardPool, issued := [] }
                  commission (env.CommissionInBaseCoin tx)).state
                rewardPool := (SellAllSwapPool.apply tx
                  { state := context.state, rewardPool := rewardPool, issued := [] }
                  commission (env.CommissionInBaseCoin tx)).rewardPool
                issued := (SellAllSwapPool.apply tx
                  { state := context.state, rewardPool := rewardPool, issued := [] }
                  commission (env.CommissionInBaseCoin tx)).issued }
          else
            Go.ret (RunResult.untouched (SellAllSwapPool.okResponse env tx) context rewardPool) := by
  cases context with
  | check cs =>
    simp only [Context.state, NewCheckState] at hadm
    simp only [SellAllSwapPool.Run, hadm, Context.state, Context.isDeliver]
    rfl
  | deliver s =>
    simp only [Context.state, NewCheckState] at hadm
    simp only [SellAllSwapPool.Run, NewCheckState, hadm, Context.state, Context.isDeliver]
    rfl

/-- An error of the commission computation is a response of `CheckReserveUnderflow`. -/
theorem sellAll_commission_error (env : Env) (tx : Transaction)
    (gasCoin : Option Coin) (cib : Int) (errResp : Response)
    (h : SellAllSwapPool.commission env tx gasCoin cib = Go.ret (Except.error errResp)) :
    ∃ coin, env.CheckReserveUnderflow coin cib = some errResp := by
  unfold SellAllSwapPool.commission at h
  split at h
  · split at h
    · cases h
    · rename_i coin
      cases he : env.CheckReserveUnderflow coin cib with
      | none => simp [he] at h
      | some e =>
        simp only [he, Go.ret.injEq, Except.error.injEq] at h
        subst h
        exact ⟨coin, he⟩
  · cases h

/-- When `basicCheck` admits the transaction, the response of `Run`, if any, is the one of
`CheckReserveUnderflow`, the insufficient-funds one, or the `OK` one. -/
theorem sellAll_Run_response_of_admitted (env : Env) (data : SellAllSwapPool)
    (tx : Transaction) (context : Context) (rewardPool : Int) (currentBlock : Nat)
    (res : RunResult)
    (hadm : data.basicCheck tx (NewCheckState context.state) = none)
    (hrun : data.Run env tx context rewardPool currentBlock = Go.ret res) :
    (∃ coin delta, env.CheckReserveUnderflow coin delta = some res.response)
      ∨ res.response.Code = Code.InsufficientFunds
      ∨ res.response.Code = Code.OK := by
  rw [sellAll_Run_of_admitted env data tx context rewardPool currentBlock hadm] at hrun
  split at hrun
  · cases hrun
  · rename_i errResp hcom
    simp only [Go.ret.injEq] at hrun
    subst hrun
    obtain ⟨coin, hcoin⟩ := sellAll_commission_error env tx _ _ errResp hcom
    exact Or.inl ⟨coin, _, hcoin⟩
  · split at hrun
    · split at hrun
      · cases hrun
      · simp only [Go.ret.injEq] at hrun
        subst hrun
        exact Or.inr (Or.inl rfl)
    · split at hrun
      · simp only [Go.ret.injEq] at hrun
        subst hrun
        exact Or.inr (Or.inr rfl)
      · simp only [Go.ret.injEq] at hrun
        subst hrun
        exact Or.inr (Or.inr rfl)

/-- C6: `SellAllSwapPool.Run` returns the rejection with log `identical coin` whenever
`CoinToSell == CoinToBuy`, whatever the pools and the balances are; when the two coins
differ it returns the rejection `swap pool not found` exactly when no swap pool exists
for the pair (`henv`: the external helper `CheckReserveUnderflow` does not itself answer
with that rejection). In both rejections nothing is touched. -/
theorem C6_identical_coin_and_missing_pool (env : Env)
    (henv : ∀ coin delta, env.CheckReserveUnderflow coin delta ≠ some swapPoolNotFoundResponse)
    (data : SellAllSwapPool) (tx : Transaction) (context : Context) (rewardPool : Int)
    (currentBlock : Nat) :
    (data.CoinToSell = data.CoinToBuy →
        data.Run env tx context rewardPool currentBlock
          = Go.ret (RunResult.untouched identicalCoinResponse context rewardPool))
      ∧ identicalCoinResponse.Log = "identical coin"
      ∧ swapPoolNotFoundResponse.Log = "swap pool not found"
      ∧ (data.CoinToSell ≠ data.CoinToBuy →
          context.state.Swap.SwapPoolExist data.CoinToSell data.CoinToBuy = false →
          data.Run env tx context rewardPool currentBlock
            = Go.ret (RunResult.untouched swapPoolNotFoundResponse context rewardPool))
      ∧ (data.CoinToSell ≠ data.CoinToBuy →
          ((data.Run env tx context rewardPool currentBlock).map (fun res => res.response)
              = Go.ret swapPoolNotFoundResponse
            ↔ context.state.Swap.SwapPoolExist data.CoinToSell data.CoinToBuy = false)) := by
  have hmiss : data.CoinToSell ≠ data.CoinToBuy →
      context.state.Swap.SwapPoolExist data.CoinToSell data.CoinToBuy = false →
      data.Run env tx context rewardPool currentBlock
        = Go.ret (RunResult.untouched swapPoolNotFoundResponse context rewardPool) := by
    intro hne hno
    apply sellAll_Run_of_rejected
    unfold SellAllSwapPool.basicCheck
    rw [if_neg (fun h => hne h.symm)]
    simp [NewCheckState, hno]
  refine ⟨?_, rfl, rfl, hmiss, ?_⟩
  · intro heq
    apply sellAll_Run_of_rejected
    unfold SellAllSwapPool.basicCheck
    rw [if_pos heq.symm]
  · intro hne
    constructor
    · intro hresp
      by_contra hex
      have hex2 : context.state.Swap.SwapPoolExist data.CoinToSell data.CoinToBuy = true := by
        simpa using hex
      have hadm : data.basicCheck tx (NewCheckState context.state) = none := by
        unfold SellAllSwapPool.basicCheck
        rw [if_neg (fun h => hne h.symm)]
        simp [NewCheckState, hex2]
      cases hrun : data.Run env tx context rewardPool currentBlock with
      | panic => simp [hrun, Go.map] at hresp
      | ret res =>
        simp only [hrun, Go.map, Go.ret.injEq] at hresp
        rcases sellAll_Run_response_of_admitted env data tx context rewardPool
          currentBlock res hadm hrun with ⟨coin, delta, hr⟩ | hcode | hcode
        · rw [hresp] at hr
          exact henv coin delta hr
        · rw [hresp] at hcode
          simp [swapPoolNotFoundResponse] at hcode
        · rw [hresp] at hcode
          simp [swapPoolNotFoundResponse] at hcode
    · intro hno
      rw [hmiss hne hno]
      rfl

/-- Witness of C6: the example configuration; the coins 1 and 1 are identical, and no
pool exists for the pair `(2, 1)`. -/
theorem C6_identical_coin_and_missing_pool_witness :
    (SellAllSwapPool.Run exampleEnv { CoinToSell := 1, CoinToBuy := 1, MinimumValueToBuy := 0 }
        (exampleTx 0) (Context.deliver (exampleState 20 100)) 0 7).map (fun res => res.response)
      = Go.ret identicalCoinResponse
    ∧ (SellAllSwapPool.Run exampleEnv { CoinToSell := 2, CoinToBuy := 1, MinimumValueToBuy := 0 }
        (exampleTx 0) (Context.deliver (exampleState 20 100)) 0 7).map (fun res => res.response)
      = Go.ret swapPoolNotFoundResponse := by
  have henv : ∀ coin delta,
      exampleEnv.CheckReserveUnderflow coin delta ≠ some swapPoolNotFoundResponse := by
    intro coin delta h
    simp only [exampleEnv] at h
    split at h
    · simp [swapPoolNotFoundResponse] at h
    · cases h
  constructor
  · rw [(C6_identical_coin_and_missing_pool exampleEnv henv
      { CoinToSell := 1, CoinToBuy := 1, MinimumValueToBuy := 0 } (exampleTx 0)
      (Context.deliver (exampleState 20 100)) 0 7).1 rfl]
    rfl
  · rw [(C6_identical_coin_and_missing_pool exampleEnv henv
      { CoinToSell := 2, CoinToBuy := 1, MinimumValueToBuy := 0 } (exampleTx 0)
      (Context.deliver (exampleState 20 100)) 0 7).2.2.2.1 (by decide) (by decide)]
    rfl

/-- C7: in both handlers, a `Run` against a check context and a `Run` whose code is not
`OK` leave the ledger state and the reward pool exactly as they were, and issue no
mutator call: the state and the reward pool change only in a deliver context with the
code `OK`. -/
theorem C7_no_effect_unless_applied (env : Env) (edit : EditCandidateCommission)
    (sell : SellAllSwapPool) (tx : Transaction) (context : Context) (rewardPool : Int)
    (currentBlock : Nat) (price gas : Int) (res : RunResult)
    (hrun : edit.Run env tx context rewardPool currentBlock price gas = Go.ret res
      ∨ sell.Run env tx context rewardPool currentBlock = Go.ret res)
    (hnot : context.isDeliver = false ∨ res.response.Code ≠ Code.OK) :
    res.state = context.state ∧ res.rewardPool = rewardPool ∧ res.issued = [] := by
  have hcases : res = RunResult.untouched res.response context rewardPool
      ∨ (context.isDeliver = true ∧ res.response.Code = Code.OK) := by
    rcases hrun with h | h
    · exact edit_Run_untouched_or_applied env edit tx context rewardPool
        currentBlock price gas res h
    · exact sellAll_Run_untouched_or_applied env sell tx context rewardPool
        currentBlock res h
  rcases hcases with h | ⟨hd, hok⟩
  · rw [h]
    exact ⟨rfl, rfl, rfl⟩
  · rcases hnot with h | h
    · rw [hd] at h
      cases h
    · exact absurd hok h

/-- Witness of C7: the sell-all handler rejecting identical coins in a deliver context. -/
theorem C7_no_effect_unless_applied_witness :
    ∃ res,
      SellAllSwapPool.Run exampleEnv { CoinToSell := 1, CoinToBuy := 1, MinimumValueToBuy := 0 }
          (exampleTx 0) (Context.deliver (exampleState 20 100)) 50 7 = Go.ret res
      ∧ res.response.Code ≠ Code.OK
      ∧ res.state = exampleState 20 100 ∧ res.rewardPool = 50 ∧ res.issued = [] :=
  ⟨_, rfl, by decide,
    C7_no_effect_unless_applied exampleEnv { PubKey := exampleKey, Commission := 30 }
      { CoinToSell := 1, CoinToBuy := 1, MinimumValueToBuy := 0 } (exampleTx 0)
      (Context.deliver (exampleState 20 100)) 50 7 10 7 _ (Or.inr rfl) (Or.inr (by decide))⟩

/-- Every `Run` of the sell-all handler that returns `OK` in a deliver context went
through the applied path. -/
theorem sellAll_Run_deliver_ok_inv (env : Env) (henv : env.ErrorsAreNotOK)
    (data : SellAllSwapPool) (tx : Transaction) (st : State) (rewardPool : Int)
    (currentBlock : Nat) (res : RunResult)
    (hrun : data.Run env tx (Context.deliver st) rewardPool currentBlock = Go.ret res)
    (hok : res.response.Code = Code.OK) :
    ∃ commission,
      data.basicCheck tx (NewCheckState st) = none
      ∧ SellAllSwapPool.commission env tx (st.Coins.GetCoin tx.GasCoin)
          (env.CommissionInBaseCoin tx) = Go.ret (Except.ok commission)
      ∧ ¬ st.Accounts.GetBalance tx.Sender tx.GasCoin < commission := by
  cases hb : data.basicCheck tx (NewCheckState st) with
  | some r =>
    rw [sellAll_Run_of_rejected env data tx (Context.deliver st) rewardPool
      currentBlock r hb] at hrun
    simp only [Go.ret.injEq] at hrun
    subst hrun
    rcases sellAll_basicCheck_cases data tx _ r hb with h | h
    · rw [h] at hok
      simp [RunResult.untouched, identicalCoinResponse] at hok
    · rw [h] at hok
      simp [RunResult.untouched, swapPoolNotFoundResponse] at hok
  | none =>
    rw [sellAll_Run_of_admitted env data tx (Context.deliver st) rewardPool
      currentBlock hb] at hrun
    simp only [Context.state] at hrun
    cases hcom : SellAllSwapPool.commission env tx (st.Coins.GetCoin tx.GasCoin)
        (env.CommissionInBaseCoin tx) with
    | panic => simp [hcom] at hrun
    | ret e =>
      cases e with
      | error errResp =>
        obtain ⟨coin, hcoin⟩ := sellAll_commission_error env tx _ _ errResp hcom
        have hne := henv.2.2 coin _ errResp hcoin
        simp only [hcom, Go.ret.injEq] at hrun
        subst hrun
        exact absurd hok hne
      | ok commission =>
        refine ⟨commission, rfl, rfl, ?_⟩
        intro hlt
        simp only [hcom, hlt, if_true] at hrun
        cases hg : st.Coins.GetCoin tx.GasCoin with
        | none => simp [hg] at hrun
        | some coin =>
          simp only [hg, Go.ret.injEq] at hrun
          subst hrun
          simp [RunResult.untouched, insufficientFundsResponse] at hok

/-- The effects of the sell-all handler on the balances: one debit, of the sender, in the
gas coin, by the commission. -/
theorem sellAll_apply_balance (tx : Transaction) (d : Deliver) (commission cib : Int)
    (address : Address) (coin : CoinID) :
    (SellAllSwapPool.apply tx d commission cib).state.Accounts.GetBalance address coin
      = if address = tx.Sender ∧ coin = tx.GasCoin then
          d.state.Accounts.GetBalance address coin - commission
        else d.state.Accounts.GetBalance address coin := by
  simp [SellAllSwapPool.apply, Deliver.SubVolume, Deliver.SubReserve, Deliver.SubBalance,
    Deliver.AddRewardPool, Deliver.SetNonce, AccountsState.GetBalance]

/-- The effect of the sell-all handler on the reward pool: one credit, by the commission
in base coin. -/
theorem sellAll_apply_rewardPool (tx : Transaction) (d : Deliver)
    (commission cib : Int) :
    (SellAllSwapPool.apply tx d commission cib).rewardPool = d.rewardPool + cib := by
  simp [SellAllSwapPool.apply, Deliver.SubVolume, Deliver.SubReserve, Deliver.SubBalance,
    Deliver.AddRewardPool, Deliver.SetNonce]

/-- The mutator calls the sell-all handler issues, in order: the volume and reserve
subtractions are issued whatever the gas coin is. -/
theorem sellAll_apply_issued (tx : Transaction) (d : Deliver) (commission cib : Int) :
    (SellAllSwapPool.apply tx d commission cib).issued
      = d.issued ++ [Op.AddRewardPool cib, Op.SubVolume tx.GasCoin commission,
          Op.SubReserve tx.GasCoin cib, Op.SubBalance tx.Sender tx.GasCoin commission,
          Op.SetNonce tx.Sender tx.Nonce] := by
  simp [SellAllSwapPool.apply, Deliver.SubVolume, Deliver.SubReserve, Deliver.SubBalance,
    Deliver.AddRewardPool, Deliver.SetNonce]

/-- With the base coin as gas coin, the commission of the sell-all handler is
`commissionInBaseCoin` unchanged. -/
theorem sellAll_commission_of_base (env : Env) (tx : Transaction)
    (gasCoin : Option Coin) (cib : Int) (hbase : IsBaseCoin env tx.GasCoin = true) :
    SellAllSwapPool.commission env tx gasCoin cib = Go.ret (Except.ok cib) := by
  simp [SellAllSwapPool.commission, hbase]

/-- C8: in both handlers, after a `Run` that returns `OK` in a deliver context the
sender's balance in the gas coin is `≥ 0` (the check view reads the balances of the
deliver state, and the commission debited is not above the one checked: `hsell`, the
first amount `PairSell` returns is at most the amount offered to it); and whenever the
sender's gas-coin balance is smaller than the commission, `Run` returns
`InsufficientFunds` and debits nothing. -/
theorem C8_balance_covers_commission (env : Env) (henv : env.ErrorsAreNotOK)
    (hsell : ∀ swap coin0 coin1 amount0In minAmount1Out,
      (env.PairSell swap coin0 coin1 amount0In minAmount1Out).1.1 ≤ amount0In)
    (edit : EditCandidateCommission) (sell : SellAllSwapPool) (tx : Transaction)
    (rewardPool : Int) (currentBlock : Nat) (price gas : Int) :
    (∀ st res,
        (edit.Run env tx (Context.deliver st) rewardPool currentBlock price gas = Go.ret res
          ∨ sell.Run env tx (Context.deliver st) rewardPool currentBlock = Go.ret res) →
        res.response.Code = Code.OK →
        0 ≤ res.state.Accounts.GetBalance tx.Sender tx.GasCoin)
      ∧ (∀ context commission fromPool coin,
          edit.basicCheck env tx (NewCheckState context.state) currentBlock = Go.ret none →
          context.state.Coins.GetCoin tx.GasCoin = some coin →
          env.CalculateCommission (NewCheckState context.state)
              (context.state.Swap.GetSwapper tx.GasCoin env.GetBaseCoinID) (some coin)
              (env.CommissionInBaseCoinAt tx price) = (commission, fromPool, none) →
          context.state.Accounts.GetBalance tx.Sender tx.GasCoin < commission →
          edit.Run env tx context rewardPool currentBlock price gas
            = Go.ret (RunResult.untouched
                (insufficientFundsResponse env tx.Sender commission coin) context rewardPool))
      ∧ (∀ context commission coin,
          sell.basicCheck tx (NewCheckState context.state) = none →
          context.state.Coins.GetCoin tx.GasCoin = some coin →
          SellAllSwapPool.commission env tx (some coin) (env.CommissionInBaseCoin tx)
            = Go.ret (Except.ok commission) →
          context.state.Accounts.GetBalance tx.Sender tx.GasCoin < commission →
          sell.Run env tx context rewardPool currentBlock
            = Go.ret (RunResult.untouched
                (insufficientFundsResponse env tx.Sender commission coin) context rewardPool))
      ∧ (∀ sender commission coin,
          (insufficientFundsResponse env sender commission coin).Code
            = Code.InsufficientFunds) := by
  refine ⟨?_, ?_, ?_, ?_⟩
  · intro st res hrun hok
    rcases hrun with hrun | hrun
    · obtain ⟨commission, fromPool, hadm, hcalc, hbal⟩ :=
        edit_Run_deliver_ok_inv env henv edit tx st rewardPool currentBlock
          price gas res hrun hok
      rw [edit_Run_deliver_applied env edit tx st rewardPool currentBlock
        price gas commission fromPool hadm hcalc hbal] at hrun
      simp only [Go.ret.injEq] at hrun
      subst hrun
      simp only []
      rw [edit_apply_balance, if_pos ⟨rfl, rfl⟩,
        edit_apply_commission]
      have hle : (if fromPool = true then
            (env.PairSell st.Swap tx.GasCoin env.GetBaseCoinID commission
              (env.CommissionInBaseCoinAt tx price)).1
          else (commission, env.CommissionInBaseCoinAt tx price)).1 ≤ commission := by
        split
        · exact hsell _ _ _ _ _
        · exact le_refl _
      simp only [] at hle ⊢
      omega
    · obtain ⟨commission, hadm, hcom, hbal⟩ :=
        sellAll_Run_deliver_ok_inv env henv sell tx st rewardPool currentBlock res
          hrun hok
      rw [sellAll_Run_deliver_applied env sell tx st rewardPool currentBlock commission
        hadm hcom hbal] at hrun
      simp only [Go.ret.injEq] at hrun
      subst hrun
      simp only []
      rw [sellAll_apply_balance, if_pos ⟨rfl, rfl⟩]
      show 0 ≤ st.Accounts.GetBalance tx.Sender tx.GasCoin - commission
      omega
  · intro context commission fromPool coin hadm hcoin hcalc hbal
    exact edit_Run_insufficient env edit tx context rewardPool currentBlock
      price gas commission fromPool coin hadm hcoin hcalc hbal
  · intro context commission coin hadm hcoin hcom hbal
    exact sellAll_Run_insufficient env sell tx context rewardPool currentBlock
      commission coin hadm hcoin hcom hbal
  · intro sender commission coin
    rfl

/-- The first amount the example `PairSell` returns is the amount offered to it. -/
theorem exampleEnv_pairSell_le (swap : SwapState) (coin0 coin1 : CoinID)
    (amount0In minAmount1Out : Int) :
    (exampleEnv.PairSell swap coin0 coin1 amount0In minAmount1Out).1.1 ≤ amount0In :=
  le_refl _

/-- Witness of C8: the example owner, holding 1000 units of the base coin, pays a
commission of 100 for a sell-all transaction and is left with 900. -/
theorem C8_balance_covers_commission_witness :
    ∃ res,
      SellAllSwapPool.Run exampleEnv { CoinToSell := 1, CoinToBuy := 2, MinimumValueToBuy := 0 }
          (exampleTx 0) (Context.deliver (exampleState 20 100)) 0 7 = Go.ret res
      ∧ res.response.Code = Code.OK
      ∧ res.state.Accounts.GetBalance exampleOwner 0 = 900
      ∧ 0 ≤ res.state.Accounts.GetBalance exampleOwner 0 :=
  ⟨_, rfl, rfl, by decide,
    (C8_balance_covers_commission exampleEnv exampleEnv_errorsAreNotOK exampleEnv_pairSell_le
      { PubKey := exampleKey, Commission := 30 }
      { CoinToSell := 1, CoinToBuy := 2, MinimumValueToBuy := 0 } (exampleTx 0) 0 7 10 7).1
      (exampleState 20 100) _ (Or.inr rfl) rfl⟩

/-- The edit handler issues a volume or reserve subtraction only when the commission is
taken through the bonding curve: the pool is not used and the gas coin is not the base
coin; the subtraction is then on the gas coin. -/
theorem edit_coin_subtraction_only_via_curve (env : Env)
    (henv : env.ErrorsAreNotOK) (data : EditCandidateCommission) (tx : Transaction)
    (st : State) (rewardPool : Int) (currentBlock : Nat) (price gas : Int) (res : RunResult)
    (hrun : data.Run env tx (Context.deliver st) rewardPool currentBlock price gas = Go.ret res)
    (hok : res.response.Code = Code.OK) (id : CoinID) (amount : Int)
    (hin : Op.SubVolume id amount ∈ res.issued ∨ Op.SubReserve id amount ∈ res.issued) :
    id = tx.GasCoin ∧ IsBaseCoin env tx.GasCoin = false
      ∧ Op.PairSell tx.GasCoin env.GetBaseCoinID
          (env.CalculateCommission (NewCheckState st)
            (st.Swap.GetSwapper tx.GasCoin env.GetBaseCoinID) (st.Coins.GetCoin tx.GasCoin)
            (env.CommissionInBaseCoinAt tx price)).1
          (env.CommissionInBaseCoinAt tx price) ∉ res.issued := by
  obtain ⟨commission, fromPool, hadm, hcalc, hbal⟩ :=
    edit_Run_deliver_ok_inv env henv data tx st rewardPool currentBlock
      price gas res hrun hok
  rw [edit_Run_deliver_applied env data tx st rewardPool currentBlock
    price gas commission fromPool hadm hcalc hbal] at hrun
  simp only [Go.ret.injEq] at hrun
  subst hrun
  simp only [] at hin ⊢
  rw [edit_apply_issued] at hin ⊢
  rw [hcalc]
  cases fromPool with
  | true => simp at hin
  | false =>
    by_cases hbase : IsBaseCoin env tx.GasCoin = true
    · simp [hbase] at hin
    · simp only [Bool.not_eq_true] at hbase
      simp [hbase] at hin ⊢
      rcases hin with h | h
      · exact h.1
      · exact h.1

/-- C9 (counterexample): a sell-all-swap-pool transaction whose gas coin is the base coin
(id 0), applied in a deliver context, issues `SubVolume(0, 100)` and `SubReserve(0, 100)`:
lines 107-108 call the two mutators on `tx.GasCoin` whatever that coin is. -/
theorem C9_sell_all_issues_subtractions_for_base_coin :
    IsBaseCoin exampleEnv (exampleTx 0).GasCoin = true
      ∧ (SellAllSwapPool.Run exampleEnv
          { CoinToSell := 1, CoinToBuy := 2, MinimumValueToBuy := 0 } (exampleTx 0)
          (Context.deliver (exampleState 20 100)) 0 7).map
          (fun res => (res.response.Code, res.issued))
        = Go.ret (Code.OK,
            [Op.AddRewardPool 100, Op.SubVolume 0 100, Op.SubReserve 0 100,
              Op.SubBalance exampleOwner 0 100, Op.SetNonce exampleOwner 5]) := by
  refine ⟨by decide, by decide⟩

/-- Every applied sell-all transaction issues the two subtractions on its gas coin,
the base coin included. -/
theorem sellAll_coin_subtraction_always (env : Env) (henv : env.ErrorsAreNotOK)
    (data : SellAllSwapPool) (tx : Transaction) (st : State) (rewardPool : Int)
    (currentBlock : Nat) (res : RunResult)
    (hrun : data.Run env tx (Context.deliver st) rewardPool currentBlock = Go.ret res)
    (hok : res.response.Code = Code.OK) :
    ∃ commission, Op.SubVolume tx.GasCoin commission ∈ res.issued
      ∧ Op.SubReserve tx.GasCoin (env.CommissionInBaseCoin tx) ∈ res.issued := by
  obtain ⟨commission, hadm, hcom, hbal⟩ :=
    sellAll_Run_deliver_ok_inv env henv data tx st rewardPool currentBlock res hrun hok
  rw [sellAll_Run_deliver_applied env data tx st rewardPool currentBlock commission
    hadm hcom hbal] at hrun
  simp only [Go.ret.injEq] at hrun
  subst hrun
  refine ⟨commission, ?_, ?_⟩
  · simp only []
    rw [sellAll_apply_issued]
    simp
  · simp only []
    rw [sellAll_apply_issued]
    simp

/-- C9 (amended): applying a transaction in a deliver context, the edit handler issues
a volume or reserve subtraction only when the commission is paid through the bonding
curve of the gas coin (the gas coin is not the base coin and `CalculateCommission` did
not choose the pool), and then on the gas coin only; in particular it issues none when
the gas coin is the base coin. The sell-all handler issues `SubVolume(tx.GasCoin,
commission)` and `SubReserve(tx.GasCoin, commissionInBaseCoin)` on every applied
transaction, the base coin included, and on no other coin. -/
theorem C9_coin_subtractions_issued (env : Env) (henv : env.ErrorsAreNotOK)
    (edit : EditCandidateCommission) (sell : SellAllSwapPool) (tx : Transaction) (st : State)
    (rewardPool : Int) (currentBlock : Nat) (price gas : Int) :
    (∀ res,
        edit.Run env tx (Context.deliver st) rewardPool currentBlock price gas = Go.ret res →
        res.response.Code = Code.OK →
        (∀ id amount,
            Op.SubVolume id amount ∈ res.issued ∨ Op.SubReserve id amount ∈ res.issued →
            id = tx.GasCoin ∧ IsBaseCoin env tx.GasCoin = false
              ∧ (env.CalculateCommission (NewCheckState st)
                  (st.Swap.GetSwapper tx.GasCoin env.GetBaseCoinID)
                  (st.Coins.GetCoin tx.GasCoin) (env.CommissionInBaseCoinAt tx price)).2.1
                = false)
          ∧ (IsBaseCoin env tx.GasCoin = true →
              ∀ id amount,
                Op.SubVolume id amount ∉ res.issued ∧ Op.SubReserve id amount ∉ res.issued))
      ∧ (∀ res,
          sell.Run env tx (Context.deliver st) rewardPool currentBlock = Go.ret res →
          res.response.Code = Code.OK →
          ∃ commission,
            SellAllSwapPool.commission env tx (st.Coins.GetCoin tx.GasCoin)
                (env.CommissionInBaseCoin tx) = Go.ret (Except.ok commission)
            ∧ res.issued
              = [Op.AddRewardPool (env.CommissionInBaseCoin tx),
                  Op.SubVolume tx.GasCoin commission,
                  Op.SubReserve tx.GasCoin (env.CommissionInBaseCoin tx),
                  Op.SubBalance tx.Sender tx.GasCoin commission,
                  Op.SetNonce tx.Sender tx.Nonce]) := by
  constructor
  · intro res hrun hok
    have honly : ∀ id amount,
        Op.SubVolume id amount ∈ res.issued ∨ Op.SubReserve id amount ∈ res.issued →
        id = tx.GasCoin ∧ IsBaseCoin env tx.GasCoin = false
          ∧ (env.CalculateCommission (NewCheckState st)
              (st.Swap.GetSwapper tx.GasCoin env.GetBaseCoinID)
              (st.Coins.GetCoin tx.GasCoin) (env.CommissionInBaseCoinAt tx price)).2.1
            = false := by
      intro id amount hin
      obtain ⟨commission, fromPool, hadm, hcalc, hbal⟩ :=
        edit_Run_deliver_ok_inv env henv edit tx st rewardPool currentBlock price gas res
          hrun hok
      rw [edit_Run_deliver_applied env edit tx st rewardPool currentBlock price gas commission
        fromPool hadm hcalc hbal] at hrun
      simp only [Go.ret.injEq] at hrun
      subst hrun
      simp only [] at hin
      rw [edit_apply_issued] at hin
      rw [hcalc]
      cases fromPool with
      | true => simp at hin
      | false =>
        by_cases hbase : IsBaseCoin env tx.GasCoin = true
        · simp [hbase] at hin
        · simp only [Bool.not_eq_true] at hbase
          simp [hbase] at hin
          rcases hin with h | h
          · exact ⟨h.1, hbase, rfl⟩
          · exact ⟨h.1, hbase, rfl⟩
    refine ⟨honly, ?_⟩
    intro hbase id amount
    constructor
    · intro hin
      have h := (honly id amount (Or.inl hin)).2.1
      rw [hbase] at h
      cases h
    · intro hin
      have h := (honly id amount (Or.inr hin)).2.1
      rw [hbase] at h
      cases h
  · intro res hrun hok
    obtain ⟨commission, hadm, hcom, hbal⟩ :=
      sellAll_Run_deliver_ok_inv env henv sell tx st rewardPool currentBlock res hrun hok
    rw [sellAll_Run_deliver_applied env sell tx st rewardPool currentBlock commission hadm hcom
      hbal] at hrun
    simp only [Go.ret.injEq] at hrun
    subst hrun
    refine ⟨commission, hcom, ?_⟩
    simp only []
    rw [sellAll_apply_issued]
    rfl

/-- Witness of C9 (amended): with the base coin as gas coin, the applied edit
transaction of the example owner issues no volume or reserve subtraction. -/
theorem C9_coin_subtractions_issued_witness :
    ∃ res,
      EditCandidateCommission.Run exampleEnv { PubKey := exampleKey, Commission := 30 }
          (exampleTx 0) (Context.deliver (exampleState 20 100)) 0 1555300 100 7 = Go.ret res
      ∧ res.response.Code = Code.OK
      ∧ res.issued
        = [Op.SubBalance exampleOwner 0 100, Op.AddRewardPool 100,
            Op.EditCommission exampleKey 30 1555300, Op.SetNonce exampleOwner 5]
      ∧ ∀ id amount,
          Op.SubVolume id amount ∉ res.issued ∧ Op.SubReserve id amount ∉ res.issued :=
  ⟨_, rfl, rfl, by decide,
    ((C9_coin_subtractions_issued exampleEnv exampleEnv_errorsAreNotOK
      { PubKey := exampleKey, Commission := 30 }
      { CoinToSell := 1, CoinToBuy := 2, MinimumValueToBuy := 0 } (exampleTx 0)
      (exampleState 20 100) 0 1555300 100 7).1 _ rfl rfl).2 (by decide)⟩

/-- C10: for a sell-all-swap-pool transaction whose gas coin is the base coin and that
is applied in a deliver context (`Run` returns `OK`), the commission is
`commissionInBaseCoin` unchanged: the sender's gas-coin balance decreases by exactly
`commissionInBaseCoin` and the reward pool increases by exactly the same amount. -/
theorem C10_base_coin_commission_unchanged (env : Env) (henv : env.ErrorsAreNotOK)
    (data : SellAllSwapPool) (tx : Transaction) (st : State) (rewardPool : Int)
    (currentBlock : Nat) (res : RunResult)
    (hbase : IsBaseCoin env tx.GasCoin = true)
    (hrun : data.Run env tx (Context.deliver st) rewardPool currentBlock = Go.ret res)
    (hok : res.response.Code = Code.OK) :
    SellAllSwapPool.commission env tx (st.Coins.GetCoin tx.GasCoin) (env.CommissionInBaseCoin tx)
        = Go.ret (Except.ok (env.CommissionInBaseCoin tx))
      ∧ res.state.Accounts.GetBalance tx.Sender tx.GasCoin
        = st.Accounts.GetBalance tx.Sender tx.GasCoin - env.CommissionInBaseCoin tx
      ∧ res.rewardPool = rewardPool + env.CommissionInBaseCoin tx
      ∧ Op.SubBalance tx.Sender tx.GasCoin (env.CommissionInBaseCoin tx) ∈ res.issued
      ∧ Op.AddRewardPool (env.CommissionInBaseCoin tx) ∈ res.issued := by
  obtain ⟨commission, hadm, hcom, hbal⟩ :=
    sellAll_Run_deliver_ok_inv env henv data tx st rewardPool currentBlock res hrun hok
  have hcb := sellAll_commission_of_base env tx (st.Coins.GetCoin tx.GasCoin)
    (env.CommissionInBaseCoin tx) hbase
  have hceq : commission = env.CommissionInBaseCoin tx := by
    rw [hcb] at hcom
    simp only [Go.ret.injEq, Except.ok.injEq] at hcom
    exact hcom.symm
  subst hceq
  rw [sellAll_Run_deliver_applied env data tx st rewardPool currentBlock _
    hadm hcom hbal] at hrun
  simp only [Go.ret.injEq] at hrun
  subst hrun
  refine ⟨hcb, ?_, ?_, ?_, ?_⟩
  · simp only []
    rw [sellAll_apply_balance, if_pos ⟨rfl, rfl⟩]
  · simp only []
    rw [sellAll_apply_rewardPool]
  · simp only []
    rw [sellAll_apply_issued]
    simp
  · simp only []
    rw [sellAll_apply_issued]
    simp

/-- Witness of C10: the example owner pays the commission of 100 in the base coin; the
balance goes from 1000 to 900 and the reward pool from 40 to 140. -/
theorem C10_base_coin_commission_unchanged_witness :
    ∃ res,
      SellAllSwapPool.Run exampleEnv { CoinToSell := 1, CoinToBuy := 2, MinimumValueToBuy := 0 }
          (exampleTx 0) (Context.deliver (exampleState 20 100)) 40 7 = Go.ret res
      ∧ res.response.Code = Code.OK
      ∧ exampleEnv.CommissionInBaseCoin (exampleTx 0) = 100
      ∧ res.state.Accounts.GetBalance exampleOwner 0
        = (exampleState 20 100).Accounts.GetBalance exampleOwner 0 - 100
      ∧ res.rewardPool = 40 + 100 :=
  have h := C10_base_coin_commission_unchanged exampleEnv exampleEnv_errorsAreNotOK
    { CoinToSell := 1, CoinToBuy := 2, MinimumValueToBuy := 0 } (exampleTx 0)
    (exampleState 20 100) 40 7 _ (by decide) rfl rfl
  ⟨_, rfl, rfl, by decide, h.2.1, h.2.2.1⟩

/-! ## Nonces -/

/-- The effect of the edit handler on the nonces: the sender's nonce becomes the
transaction's, no other nonce changes. -/
theorem edit_apply_nonce (env : Env) (data : EditCandidateCommission) (tx : Transaction)
    (d : Deliver) (currentBlock : Nat) (commission cib : Int) (fromPool : Bool)
    (address : Address) :
    (data.apply env tx d currentBlock commission cib fromPool).2.state.Accounts.GetNonce address
      = if address = tx.Sender then tx.Nonce else d.state.Accounts.GetNonce address := by
  unfold EditCandidateCommission.apply
  cases fromPool with
  | true =>
    simp [Deliver.PairSell, Deliver.SubBalance, Deliver.AddRewardPool, Deliver.EditCommission,
      Deliver.SetNonce, AccountsState.GetNonce]
  | false =>
    by_cases hbase : IsBaseCoin env tx.GasCoin = true
    · simp [hbase, Deliver.SubBalance, Deliver.AddRewardPool, Deliver.EditCommission,
        Deliver.SetNonce, AccountsState.GetNonce]
    · simp [hbase, Deliver.SubVolume, Deliver.SubReserve, Deliver.SubBalance,
        Deliver.AddRewardPool, Deliver.EditCommission, Deliver.SetNonce,
        AccountsState.GetNonce]

/-- The effect of the sell-all handler on the nonces: the sender's nonce becomes the
transaction's, no other nonce changes. -/
theorem sellAll_apply_nonce (tx : Transaction) (d : Deliver) (commission cib : Int)
    (address : Address) :
    (SellAllSwapPool.apply tx d commission cib).state.Accounts.GetNonce address
      = if address = tx.Sender then tx.Nonce else d.state.Accounts.GetNonce address := by
  simp [SellAllSwapPool.apply, Deliver.SubVolume, Deliver.SubReserve, Deliver.SubBalance,
    Deliver.AddRewardPool, Deliver.SetNonce, AccountsState.GetNonce]

/-- C11: for a transaction with nonce `n` from sender `A` that either handler applies in
a deliver context (`Run` returns `OK`), the stored nonce of `A` afterwards is `n`, the
nonce of every other account is what it was, and the handler has issued
`SetNonce(A, n)`. -/
theorem C11_nonce_set_to_transaction_nonce (env : Env) (henv : env.ErrorsAreNotOK)
    (edit : EditCandidateCommission) (sell : SellAllSwapPool) (tx : Transaction) (st : State)
    (rewardPool : Int) (currentBlock : Nat) (price gas : Int) (res : RunResult)
    (hrun : edit.Run env tx (Context.deliver st) rewardPool currentBlock price gas = Go.ret res
      ∨ sell.Run env tx (Context.deliver st) rewardPool currentBlock = Go.ret res)
    (hok : res.response.Code = Code.OK) :
    res.state.Accounts.GetNonce tx.Sender = tx.Nonce
      ∧ (∀ address, address ≠ tx.Sender →
          res.state.Accounts.GetNonce address = st.Accounts.GetNonce address)
      ∧ Op.SetNonce tx.Sender tx.Nonce ∈ res.issued := by
  rcases hrun with hrun | hrun
  · obtain ⟨commission, fromPool, hadm, hcalc, hbal⟩ :=
      edit_Run_deliver_ok_inv env henv edit tx st rewardPool currentBlock price gas res hrun hok
    rw [edit_Run_deliver_applied env edit tx st rewardPool currentBlock price gas commission
      fromPool hadm hcalc hbal] at hrun
    simp only [Go.ret.injEq] at hrun
    subst hrun
    refine ⟨?_, ?_, ?_⟩
    · simp only []
      rw [edit_apply_nonce, if_pos rfl]
    · intro address hne
      simp only []
      rw [edit_apply_nonce, if_neg hne]
    · simp only []
      rw [edit_apply_issued]
      simp
  · obtain ⟨commission, hadm, hcom, hbal⟩ :=
      sellAll_Run_deliver_ok_inv env henv sell tx st rewardPool currentBlock res hrun hok
    rw [sellAll_Run_deliver_applied env sell tx st rewardPool currentBlock commission hadm hcom
      hbal] at hrun
    simp only [Go.ret.injEq] at hrun
    subst hrun
    refine ⟨?_, ?_, ?_⟩
    · simp only []
      rw [sellAll_apply_nonce, if_pos rfl]
    · intro address hne
      simp only []
      rw [sellAll_apply_nonce, if_neg hne]
    · simp only []
      rw [sellAll_apply_issued]
      simp

/-- Witness of C11: the example owner, whose stored nonce is 0, edits the commission of
the example candidate with a transaction of nonce 5. -/
theorem C11_nonce_set_to_transaction_nonce_witness :
    ∃ res,
      EditCandidateCommission.Run exampleEnv { PubKey := exampleKey, Commission := 30 }
          (exampleTx 0) (Context.deliver (exampleState 20 100)) 0 1555300 10 7 = Go.ret res
      ∧ res.response.Code = Code.OK
      ∧ (exampleState 20 100).Accounts.GetNonce exampleOwner = 0
      ∧ res.state.Accounts.GetNonce exampleOwner = 5
      ∧ res.state.Accounts.GetNonce exampleStranger
        = (exampleState 20 100).Accounts.GetNonce exampleStranger :=
  have h := C11_nonce_set_to_transaction_nonce exampleEnv exampleEnv_errorsAreNotOK
    { PubKey := exampleKey, Commission := 30 }
    { CoinToSell := 1, CoinToBuy := 2, MinimumValueToBuy := 0 } (exampleTx 0)
    (exampleState 20 100) 0 1555300 10 7 _ (Or.inl rfl) rfl
  ⟨_, rfl, rfl, rfl, h.1, h.2.1 exampleStranger (by decide)⟩

/-! ## `encode` -/

/-- After the switch has assigned a message, `encode` returns the error of `anypb.New`
or the message it made: never the error of the default branch. -/
theorem encodeMessage_ne_unknown (pb : Proto) (m : Go Message) :
    encodeMessage pb m ≠ Go.ret (none, some (GoError.errorsNew "unknown tx type")) := by
  unfold encodeMessage
  cases m with
  | panic => simp
  | ret m =>
    rcases hnew : pb.New m with ⟨a, e⟩
    cases e with
    | some err => simp [hnew]
    | none => simp [hnew]

/-- After the switch has assigned a message, `encode` does not return a nil message
with a nil error, provided `anypb.New` does not. -/
theorem encodeMessage_ne_nil (pb : Proto) (hnew : ∀ m, pb.New m ≠ (none, none))
    (m : Go Message) : encodeMessage pb m ≠ Go.ret (none, none) := by
  unfold encodeMessage
  cases m with
  | panic => simp
  | ret m =>
    have h := hnew m
    rcases hn : pb.New m with ⟨a, e⟩
    rw [hn] at h
    cases e with
    | some err => simp [hn]
    | none =>
      cases a with
      | none => exact absurd rfl h
      | some a => simp [hn]

/-- C12: `encode` returns the error `unknown tx type` together with no message for every
payload whose variant is not one of the cases of its type switch; for a payload whose
variant is one of the cases it never returns through that branch; and it never returns
a nil message with a nil error (`hnew`: `anypb.New` does not). -/
theorem C12_unknown_type_is_an_error (pb : Proto) (hnew : ∀ m, pb.New m ≠ (none, none))
    (data : Data) (rCoins : CoinsState) :
    (data.type ∉ switchCases →
        encode pb data rCoins = Go.ret (none, some (GoError.errorsNew "unknown tx type")))
      ∧ (data.type ∈ switchCases →
          encode pb data rCoins ≠ Go.ret (none, some (GoError.errorsNew "unknown tx type")))
      ∧ encode pb data rCoins ≠ Go.ret (none, none) := by
  rcases data with ⟨type, payload⟩
  cases type
  case PriceVoteData =>
    refine ⟨fun _ => rfl, fun h => ?_, ?_⟩
    · simp [switchCases] at h
    · simp [encode]
  case MoveStakeData =>
    refine ⟨fun _ => rfl, fun h => ?_, ?_⟩
    · simp [switchCases] at h
    · simp [encode]
  case other name =>
    refine ⟨fun _ => rfl, fun h => ?_, ?_⟩
    · simp [switchCases] at h
    · simp [encode]
  all_goals
    refine ⟨fun h => ?_, fun _ => ?_, ?_⟩
    · exact absurd (by simp [switchCases]) h
    · exact encodeMessage_ne_unknown pb _
    · exact encodeMessage_ne_nil pb hnew _

/-- Witness of C12: with the example encoders, a `PriceVoteData` payload, whose case is
commented out, is answered with the error. -/
theorem C12_unknown_type_is_an_error_witness :
    DataType.PriceVoteData ∉ switchCases
      ∧ encode exampleProto { type := DataType.PriceVoteData, payload := { bytes := [1, 2] } }
          (exampleState 20 100).Coins
        = Go.ret (none, some (GoError.errorsNew "unknown tx type")) :=
  ⟨by decide,
    (C12_unknown_type_is_an_error exampleProto (by intro m h; cases h)
      { type := DataType.PriceVoteData, payload := { bytes := [1, 2] } }
      (exampleState 20 100).Coins).1 (by decide)⟩

/-! ## The `tx.type` tag -/

/-- The `OK` response of the edit handler carries, under `tx.type`, the hex encoding of
the byte `TxType()` returns. -/
theorem edit_okResponse_tag (env : Env) (data : EditCandidateCommission) (tx : Transaction)
    (gas commission cib : Int) (fromPool : Bool) :
    (EditCandidateCommission.okResponse env tx gas commission cib fromPool).tag "tx.type"
      = some (hexEncodeToString [data.TxType env]) := by
  simp [Response.tag, EditCandidateCommission.okResponse, EditCandidateCommission.TxType,
    List.find?]

/-- The `OK` response of the sell-all handler carries, under `tx.type`, the hex encoding
of the byte `TypeSellSwapPool`. -/
theorem sellAll_okResponse_tag (env : Env) (tx : Transaction) :
    (SellAllSwapPool.okResponse env tx).tag "tx.type"
      = some (hexEncodeToString [env.TypeSellSwapPool]) := by
  simp [Response.tag, SellAllSwapPool.okResponse, List.find?]

/-- Every `Run` of the sell-all handler that returns `OK`, in either context, returns
the response of lines 115-125. -/
theorem sellAll_Run_ok_response (env : Env) (henv : env.ErrorsAreNotOK)
    (data : SellAllSwapPool) (tx : Transaction) (context : Context) (rewardPool : Int)
    (currentBlock : Nat) (res : RunResult)
    (hrun : data.Run env tx context rewardPool currentBlock = Go.ret res)
    (hok : res.response.Code = Code.OK) :
    res.response = SellAllSwapPool.okResponse env tx := by
  cases hb : data.basicCheck tx (NewCheckState context.state) with
  | some r =>
    rw [sellAll_Run_of_rejected env data tx context rewardPool currentBlock r hb] at hrun
    simp only [Go.ret.injEq] at hrun
    subst hrun
    rcases sellAll_basicCheck_cases data tx _ r hb with h | h
    · rw [h] at hok
      simp [RunResult.untouched, identicalCoinResponse] at hok
    · rw [h] at hok
      simp [RunResult.untouched, swapPoolNotFoundResponse] at hok
  | none =>
    rw [sellAll_Run_of_admitted env data tx context rewardPool currentBlock hb] at hrun
    split at hrun
    · cases hrun
    · rename_i errResp hcom
      obtain ⟨coin, hcoin⟩ := sellAll_commission_error env tx _ _ errResp hcom
      have hne := henv.2.2 coin _ errResp hcoin
      simp only [Go.ret.injEq] at hrun
      subst hrun
      exact absurd hok hne
    · split at hrun
      · split at hrun
        · cases hrun
        · simp only [Go.ret.injEq] at hrun
          subst hrun
          simp [RunResult.untouched, insufficientFundsResponse] at hok
      · split at hrun
        · simp only [Go.ret.injEq] at hrun
          subst hrun
          rfl
        · simp only [Go.ret.injEq] at hrun
          subst hrun
          rfl

/-- The hexadecimal digits of the numbers below 16 are pairwise different. -/
theorem hexDigit_injective : ∀ n < 16, ∀ m < 16, hexDigit n = hexDigit m → n = m := by
  decide

/-- The hex encodings of two different bytes are different. -/
theorem hexEncodeToString_byte_injective (a b : Nat) (ha : a < 256) (hb : b < 256)
    (h : hexEncodeToString [a] = hexEncodeToString [b]) : a = b := by
  simp only [hexEncodeToString, List.flatMap_cons, List.flatMap_nil, List.append_nil] at h
  have h := congrArg String.data h
  simp only [List.cons_append, List.nil_append, List.cons.injEq, and_true] at h
  have h1 := hexDigit_injective (a / 16 % 16) (by omega) (b / 16 % 16) (by omega) h.1
  have h2 := hexDigit_injective (a % 16) (by omega) (b % 16) (by omega) h.2
  omega

/-- Whenever the bytes of `TypeSellSwapPool` and `TypeSellAllSwapPool` differ, the
`tx.type` tag of every `OK` response of the sell-all handler is not the hex encoding of
the sell-all-swap-pool type. -/
theorem sellAll_tag_is_not_sell_all_type (env : Env) (henv : env.ErrorsAreNotOK)
    (hsell : env.TypeSellSwapPool < 256) (hall : env.TypeSellAllSwapPool < 256)
    (hne : env.TypeSellSwapPool ≠ env.TypeSellAllSwapPool)
    (data : SellAllSwapPool) (tx : Transaction) (context : Context) (rewardPool : Int)
    (currentBlock : Nat) (res : RunResult)
    (hrun : data.Run env tx context rewardPool currentBlock = Go.ret res)
    (hok : res.response.Code = Code.OK) :
    res.response.tag "tx.type" = some (hexEncodeToString [env.TypeSellSwapPool])
      ∧ res.response.tag "tx.type" ≠ some (hexEncodeToString [env.TypeSellAllSwapPool]) := by
  rw [sellAll_Run_ok_response env henv data tx context rewardPool currentBlock res hrun hok,
    sellAll_okResponse_tag]
  refine ⟨rfl, fun h => hne ?_⟩
  exact hexEncodeToString_byte_injective _ _ hsell hall (Option.some.inj h)

/-- C13 (code evaluated at the failing input): with the type bytes `0x17` for
sell-swap-pool, `0x19` for sell-all-swap-pool and `0x1a` for edit-candidate-commission,
an applied sell-all-swap-pool transaction is tagged `tx.type = 17`, the sell-swap-pool
type, not `19`; the edit handler tags its response with `1a`, the hex encoding of the
byte `TxType()` returns. -/
theorem C13_sell_all_tagged_as_sell_swap_pool :
    (SellAllSwapPool.Run exampleEnv { CoinToSell := 1, CoinToBuy := 2, MinimumValueToBuy := 0 }
        (exampleTx 0) (Context.deliver (exampleState 20 100)) 0 7).map
        (fun res => (res.response.Code, res.response.tag "tx.type"))
      = Go.ret (Code.OK, some "17")
    ∧ hexEncodeToString [exampleEnv.TypeSellSwapPool] = "17"
    ∧ hexEncodeToString [exampleEnv.TypeSellAllSwapPool] = "19"
    ∧ (EditCandidateCommission.Run exampleEnv { PubKey := exampleKey, Commission := 30 }
        (exampleTx 0) (Context.deliver (exampleState 20 100)) 0 1555300 10 7).map
        (fun res => (res.response.Code, res.response.tag "tx.type"))
      = Go.ret (Code.OK, some "1a")
    ∧ hexEncodeToString
        [EditCandidateCommission.TxType exampleEnv { PubKey := exampleKey, Commission := 30 }]
      = "1a" := by
  refine ⟨by decide, by decide, by decide, by decide, by decide⟩

/-- Every `Run` of the edit handler that returns `OK`, in either context, tags its
response with the hex encoding of the byte `TxType()` returns. -/
theorem edit_Run_ok_tag (env : Env) (henv : env.ErrorsAreNotOK)
    (data : EditCandidateCommission) (tx : Transaction) (context : Context) (rewardPool : Int)
    (currentBlock : Nat) (price gas : Int) (res : RunResult)
    (hrun : data.Run env tx context rewardPool currentBlock price gas = Go.ret res)
    (hok : res.response.Code = Code.OK) :
    res.response.tag "tx.type" = some (hexEncodeToString [data.TxType env]) := by
  cases context with
  | deliver st =>
    obtain ⟨commission, fromPool, hadm, hcalc, hbal⟩ :=
      edit_Run_deliver_ok_inv env henv data tx st rewardPool currentBlock price gas res hrun hok
    rw [edit_Run_deliver_applied env data tx st rewardPool currentBlock price gas commission
      fromPool hadm hcalc hbal] at hrun
    simp only [Go.ret.injEq] at hrun
    subst hrun
    exact edit_okResponse_tag env data tx _ _ _ _
  | check cs =>
    cases hb : data.basicCheck env tx cs currentBlock with
    | panic => simp [EditCandidateCommission.Run, hb] at hrun
    | ret o =>
      cases o with
      | some r =>
        have hne := edit_basicCheck_code_ne_OK env henv data tx _ _ r hb
        simp only [EditCandidateCommission.Run, hb, Go.ret.injEq] at hrun
        subst hrun
        exact absurd hok hne
      | none =>
        rcases hcalc : env.CalculateCommission cs
            (cs.state.Swap.GetSwapper tx.GasCoin env.GetBaseCoinID)
            (cs.state.Coins.GetCoin tx.GasCoin)
            (env.CommissionInBaseCoinAt tx price) with ⟨commission, fromPool, e⟩
        cases e with
        | some errResp =>
          have hne := henv.2.1 _ _ _ _ errResp (by rw [hcalc])
          simp only [EditCandidateCommission.Run, hb, hcalc, Go.ret.injEq] at hrun
          subst hrun
          exact absurd hok hne
        | none =>
          by_cases hlt : cs.state.Accounts.GetBalance tx.Sender tx.GasCoin < commission
          · simp only [EditCandidateCommission.Run, hb, hcalc, hlt, if_true] at hrun
            cases hg : cs.state.Coins.GetCoin tx.GasCoin with
            | none => simp [hg] at hrun
            | some coin =>
              simp only [hg, Go.ret.injEq] at hrun
              subst hrun
              simp [RunResult.untouched, insufficientFundsResponse] at hok
          · simp only [EditCandidateCommission.Run, hb, hcalc, hlt, if_false,
              Go.ret.injEq] at hrun
            subst hrun
            exact edit_okResponse_tag env data tx _ _ _ _

/-! ## `KeepLastHeight` -/

/-- For two Go `int` values other than the least one, the wrapped difference is 1
exactly when the first is one greater than the second. -/
theorem wrapInt64_sub_eq_one_iff (v p : Int) (hv : -2 ^ 63 < v ∧ v < 2 ^ 63)
    (hp : -2 ^ 63 < p ∧ p < 2 ^ 63) : wrapInt64 (v - p) = 1 ↔ v = p + 1 := by
  unfold wrapInt64
  constructor
  · intro h
    omega
  · intro h
    omega

/-- The loop returns its starting value or an element of the list. -/
theorem KeepLastHeight_loop_mem (vs : List Int) :
    ∀ p, KeepLastHeight.loop p vs = p ∨ KeepLastHeight.loop p vs ∈ vs := by
  induction vs with
  | nil => intro p; exact Or.inl rfl
  | cons v rest ih =>
    intro p
    unfold KeepLastHeight.loop
    split
    · exact Or.inl rfl
    · right
      rcases ih v with h | h
      · rw [h]
        exact List.mem_cons_self v rest
      · exact List.mem_cons_of_mem v h

/-- The loop, from any starting value, is the scan the claim words. -/
theorem KeepLastHeight_loop_eq_scan (vs : List Int) :
    ∀ p, (-2 ^ 63 < p ∧ p < 2 ^ 63) → (∀ v ∈ vs, -2 ^ 63 < v ∧ v < 2 ^ 63) →
      KeepLastHeight.loop p vs
        = match (List.zip (p :: vs) vs).find? fun pv => pv.2 = pv.1 + 1 with
          | some pv => pv.1
          | none => vs.getLast?.getD p := by
  induction vs with
  | nil => intro p _ _; rfl
  | cons v rest ih =>
    intro p hp hvs
    have hv := hvs v (List.mem_cons_self v rest)
    have hrest : ∀ w ∈ rest, -2 ^ 63 < w ∧ w < 2 ^ 63 :=
      fun w hw => hvs w (List.mem_cons_of_mem v hw)
    unfold KeepLastHeight.loop
    rw [List.zip_cons_cons]
    by_cases h : v = p + 1
    · rw [if_pos ((wrapInt64_sub_eq_one_iff v p hv hp).2 h)]
      rw [List.find?_cons_of_pos _ (by simpa using h)]
    · rw [if_neg (fun hw => h ((wrapInt64_sub_eq_one_iff v p hv hp).1 hw))]
      rw [List.find?_cons_of_neg _ (by simpa using h)]
      rw [ih v hv hrest]
      cases hfind : (List.zip (v :: rest) rest).find? fun pv => pv.2 = pv.1 + 1 with
      | some pv => rfl
      | none =>
        cases rest with
        | nil => rfl
        | cons w tail =>
          simp only [List.getLast?_cons_cons]
          rw [List.getLast?_eq_getLast _ (List.cons_ne_nil w tail)]
          rfl

/-- C14: for every list `vs` of available versions (Go `int` values other than the least
one), `KeepLastHeight` returns 1 when `vs` is empty; otherwise it is the scan with a
running previous value that starts at 1: the previous value at the first element that is
exactly one greater than it, or the last element of `vs` when there is none. The result
is 1 or a member of `vs`; when `vs` starts with 2 it is 1, which is not a member when
the versions are in ascending order. -/
theorem C14_keepLastHeight_scan (vs : List Int)
    (hrange : ∀ v ∈ vs, -2 ^ 63 < v ∧ v < 2 ^ 63) :
    (vs = [] → KeepLastHeight vs = 1)
      ∧ KeepLastHeight vs = specKeepLastHeight vs
      ∧ (KeepLastHeight vs = 1 ∨ KeepLastHeight vs ∈ vs)
      ∧ (∀ rest, vs = 2 :: rest →
          KeepLastHeight vs = 1 ∧ (vs.Pairwise (fun a b => a < b) → (1 : Int) ∉ vs)) := by
  refine ⟨?_, ?_, ?_, ?_⟩
  · intro h
    rw [h]
    rfl
  · exact KeepLastHeight_loop_eq_scan vs 1 (by omega) hrange
  · exact KeepLastHeight_loop_mem vs 1
  · intro rest h
    subst h
    constructor
    · unfold KeepLastHeight KeepLastHeight.loop
      rw [if_pos (by decide)]
    · intro hsorted hmem
      rw [List.pairwise_cons] at hsorted
      rcases List.mem_cons.1 hmem with h | h
      · omega
      · have := hsorted.1 1 h
        omega

/-- Witness of C14: of the versions 1, 3, 4, 7 the first one greater by one than the
one before it is 4, so the result is 3. -/
theorem C14_keepLastHeight_scan_witness :
    KeepLastHeight [1, 3, 4, 7] = 3 ∧ specKeepLastHeight [1, 3, 4, 7] = 3
      ∧ KeepLastHeight [1, 3, 4, 7] = specKeepLastHeight [1, 3, 4, 7] :=
  ⟨by decide, by decide,
    (C14_keepLastHeight_scan [1, 3, 4, 7] (by decide)).2.1⟩

end Minter
